import Mathlib

/-!
Shared-ownership smart pointers (`src/shared_ptr/shared_ptr.h`).

A shallow embedding of the reference-counted `shared_ptr` / `weak_ptr` pair and of the
type-erased control block behind them.

* Addresses are natural numbers and `0` is `nullptr`.
* `size_t` counters are natural numbers reduced modulo `2 ^ 64` after every `++` / `--`.
* The heap is explicit (`Memory`): constructed control blocks, live payload objects,
  outstanding allocations, and a chronological log of the calls the code makes on its
  collaborators (allocator, deleter).
* A member call through a `CB_BASE*` that is null, or at which no control block is
  constructed, has no defined behaviour in C++; the embedding returns a `Fault` there.
-/

namespace smart_ptr

/-! ## Data model -/

/-- Number of distinct values of `size_t`. -/
def SIZE_RANGE : Nat := 2 ^ 64

/-- Outcomes that C++ leaves undefined and the embedding makes explicit. -/
inductive Fault
  /-- A member call through a null `CB_BASE*`, or `*ptr` on a null payload pointer. -/
  | nullDeref
  /-- A member call through a non-null `CB_BASE*` at which no control block is constructed. -/
  | danglingDeref
  /-- The client program names a handle variable that does not exist. -/
  | noSuchHandle
  deriving DecidableEq, Repr

/-- The `Deleter` template argument of a `ControlBlock<T, Alloc, Deleter>`. -/
inductive DeleterType
  /-- The library type `smart_ptr::DefaultDeleter<T, Alloc>` (lines 27-35). -/
  | DefaultDeleter
  /-- The standard `std::default_delete<U>` chosen by `shared_ptr(U*)` (line 288). -/
  | default_delete
  /-- Any other callable type supplied by the user. -/
  | custom (id : Nat)
  deriving DecidableEq, Repr

/-- The element type an allocator was rebound to for one `allocate` / `deallocate`. -/
inductive Footprint
  /-- The combined record `ControlData<T, Alloc, Deleter>` (lines 162-166). -/
  | ControlData
  /-- The record `ControlBlock<T, Alloc, Deleter>` alone. -/
  | ControlBlock
  deriving DecidableEq, Repr

/-- Calls made on the collaborators, in the order the code makes them. -/
inductive Event
  /-- The call `allocator_traits<A>::allocate(a, 1)` returning `addr`. -/
  | allocate (addr : Nat) (f : Footprint)
  /-- The call `allocator_traits<A>::deallocate(a, addr, 1)`. -/
  | deallocate (addr : Nat) (f : Footprint)
  /-- The call `allocator_traits<Alloc>::construct(alloc, ptr, args...)` building value `v`. -/
  | construct (ptr : Nat) (v : Int)
  /-- The call `allocator_traits<Alloc>::destroy(alloc, ptr)` made by `DefaultDeleter`. -/
  | allocDestroy (ptr : Nat)
  /-- The expression `delete ptr` evaluated by `std::default_delete`. -/
  | deleteExpr (ptr : Nat)
  /-- A call of the user callable `id` on `ptr`. -/
  | customCall (id : Nat) (ptr : Nat)
  /-- The virtual call `counter->operator()(ptr)` on the control block at `cb`. -/
  | callDeleter (cb : Nat) (ptr : Nat)
  /-- The virtual call `counter->destroy()` on the control block at `cb`. -/
  | callDestroy (cb : Nat)
  /-- The diagnostic line written to `std::cout` on line 527. -/
  | print
  deriving DecidableEq, Repr

/-- The data members of `ControlBlock<T, Alloc, Deleter>` (lines 62-65); `alloc` is the
identity of the stored allocator copy and `deleter` the type of the stored deleter. -/
structure ControlBlock where
  shared_count : Nat
  weak_count : Nat
  alloc : Nat
  deleter : DeleterType
  deriving DecidableEq, Repr

/-- The heap as the library sees it. -/
structure Memory where
  /-- Control blocks currently constructed, by address. -/
  blocks : Nat → Option ControlBlock
  /-- Payload objects currently alive, by address, with their value. -/
  objects : Nat → Option Int
  /-- Allocations obtained from a rebound allocator and not yet given back. -/
  allocs : Nat → Option Footprint
  /-- Every collaborator call so far, oldest first. -/
  log : List Event

/-- A heap with nothing in it. -/
def Memory.empty : Memory :=
  { blocks := fun _ => none, objects := fun _ => none, allocs := fun _ => none, log := [] }

/-- Append one collaborator call to the log. -/
def Memory.emit (m : Memory) (e : Event) : Memory :=
  { m with log := m.log ++ [e] }

/-- The call `allocator_traits<A>::allocate(a, 1)` when it returns `addr`. -/
def Memory.allocate (m : Memory) (addr : Nat) (f : Footprint) : Memory :=
  { m with allocs := Function.update m.allocs addr (some f), log := m.log ++ [Event.allocate addr f] }

/-- The call `allocator_traits<A>::deallocate(a, addr, 1)`. -/
def Memory.deallocate (m : Memory) (addr : Nat) (f : Footprint) : Memory :=
  { m with allocs := Function.update m.allocs addr none, log := m.log ++ [Event.deallocate addr f] }

/-- Read a control block through a `CB_BASE*`. -/
def Memory.load (m : Memory) (counter : Nat) : Except Fault ControlBlock :=
  if counter = 0 then Except.error Fault.nullDeref
  else match m.blocks counter with
    | some b => Except.ok b
    | none => Except.error Fault.danglingDeref

/-- Write a control block at an address. -/
def Memory.store (m : Memory) (counter : Nat) (b : ControlBlock) : Memory :=
  { m with blocks := Function.update m.blocks counter (some b) }

/-! ## `ControlBlock<T, Alloc, Deleter>` (lines 57-156) -/

/-- Constructor on lines 122-123: `shared_count(1), weak_count(0), alloc(a), deleter(d)`. -/
def ControlBlock.construct (a : Nat) (d : DeleterType) : ControlBlock :=
  { shared_count := 1, weak_count := 0, alloc := a, deleter := d }

/-- Lines 128-131: `++shared_count` on a `size_t`. -/
def ControlBlock.SharedCountInc (b : ControlBlock) : ControlBlock :=
  { b with shared_count := (b.shared_count + 1) % SIZE_RANGE }

/-- Lines 133-136: `--shared_count` on a `size_t`. -/
def ControlBlock.SharedCountDec (b : ControlBlock) : ControlBlock :=
  { b with shared_count := (b.shared_count + SIZE_RANGE - 1) % SIZE_RANGE }

/-- Lines 138-141. -/
def ControlBlock.GetSharedCount (b : ControlBlock) : Nat := b.shared_count

/-- Lines 143-146: `++weak_count` on a `size_t`. -/
def ControlBlock.WeakCountInc (b : ControlBlock) : ControlBlock :=
  { b with weak_count := (b.weak_count + 1) % SIZE_RANGE }

/-- Lines 148-151: `--weak_count` on a `size_t`. -/
def ControlBlock.WeakCountDec (b : ControlBlock) : ControlBlock :=
  { b with weak_count := (b.weak_count + SIZE_RANGE - 1) % SIZE_RANGE }

/-- Lines 153-156. -/
def ControlBlock.GetWeakCount (b : ControlBlock) : Nat := b.weak_count

/-- What the stored deleter does when called on `ptr`: `DefaultDeleter::operator()`
(lines 32-34) calls the allocator's `destroy`; `std::default_delete` evaluates
`delete ptr`; a user callable is only recorded. Either of the first two ends the
lifetime of the object at `ptr`; where no object is alive at `ptr` (a null pointer
included) the call is recorded and the objects stay as they are. -/
def DeleterType.run (d : DeleterType) (ptr : Nat) (m : Memory) : Memory :=
  match d with
  | DeleterType.DefaultDeleter =>
    { m with objects := Function.update m.objects ptr none, log := m.log ++ [Event.allocDestroy ptr] }
  | DeleterType.default_delete =>
    { m with objects := Function.update m.objects ptr none, log := m.log ++ [Event.deleteExpr ptr] }
  | DeleterType.custom id => m.emit (Event.customCall id ptr)

/-- The collaborator call a deleter of type `d` makes when run on `ptr`. -/
def DeleterType.event (d : DeleterType) (ptr : Nat) : Event :=
  match d with
  | DeleterType.DefaultDeleter => Event.allocDestroy ptr
  | DeleterType.default_delete => Event.deleteExpr ptr
  | DeleterType.custom id => Event.customCall id ptr

/-! ### Virtual calls through a `CB_BASE*` (lines 37-52) -/

/-- The call `counter->SharedCountInc()`. -/
def CB_BASE.SharedCountInc (counter : Nat) (m : Memory) : Except Fault Memory := do
  let b ← m.load counter
  pure (m.store counter b.SharedCountInc)

/-- The call `counter->SharedCountDec()`. -/
def CB_BASE.SharedCountDec (counter : Nat) (m : Memory) : Except Fault Memory := do
  let b ← m.load counter
  pure (m.store counter b.SharedCountDec)

/-- The call `counter->GetSharedCount()`. -/
def CB_BASE.GetSharedCount (counter : Nat) (m : Memory) : Except Fault Nat := do
  let b ← m.load counter
  pure b.GetSharedCount

/-- The call `counter->WeakCountInc()`. -/
def CB_BASE.WeakCountInc (counter : Nat) (m : Memory) : Except Fault Memory := do
  let b ← m.load counter
  pure (m.store counter b.WeakCountInc)

/-- The call `counter->WeakCountDec()`. -/
def CB_BASE.WeakCountDec (counter : Nat) (m : Memory) : Except Fault Memory := do
  let b ← m.load counter
  pure (m.store counter b.WeakCountDec)

/-- The call `counter->GetWeakCount()`. -/
def CB_BASE.GetWeakCount (counter : Nat) (m : Memory) : Except Fault Nat := do
  let b ← m.load counter
  pure b.GetWeakCount

/-- The call `counter->operator()(ptr)` (lines 80-82): `deleter(static_cast<T*>(ptr))`. -/
def CB_BASE.call (counter : Nat) (ptr : Nat) (m : Memory) : Except Fault Memory := do
  let b ← m.load counter
  pure (b.deleter.run ptr (m.emit (Event.callDeleter counter ptr)))

/-- The call `counter->destroy()` (lines 84-103). The test on line 87 compares the
deleter type with `DefaultDeleter<T, Alloc>`; both branches end the control block
(`this->~ControlBlock()`) and differ in the type the allocator is rebound to. -/
def CB_BASE.destroy (counter : Nat) (m : Memory) : Except Fault Memory := do
  let b ← m.load counter
  let m1 := m.emit (Event.callDestroy counter)
  if b.deleter = DeleterType.DefaultDeleter then
    let m2 := { m1 with blocks := Function.update m1.blocks counter none }
    pure (m2.deallocate counter Footprint.ControlData)
  else
    let m2 := { m1 with blocks := Function.update m1.blocks counter none }
    pure (m2.deallocate counter Footprint.ControlBlock)

end smart_ptr

open smart_ptr

/-- The data members of `shared_ptr<T>` (lines 190-191). -/
structure shared_ptr where
  counter : Nat
  ptr : Nat
  deriving DecidableEq, Repr

/-- The data members of `weak_ptr<T>` (lines 376-377). -/
structure weak_ptr where
  counter : Nat
  ptr : Nat
  deriving DecidableEq, Repr

/-! ## `shared_ptr<T>` (lines 180-366 and 500-530) -/

/-- Lines 280-281, `shared_ptr()`: `counter(nullptr), ptr(nullptr)`. -/
def shared_ptr.default : shared_ptr := { counter := 0, ptr := 0 }

/-- Lines 283-284, `shared_ptr(std::nullptr_t)`: `counter(nullptr), ptr(nullptr)`. -/
def shared_ptr.null : shared_ptr := { counter := 0, ptr := 0 }

/-- Lines 298-308, `shared_ptr(U* ptr, Deleter d, Alloc alloc)`, as it runs for an
allocator for which line 307 is well-formed (see `shared_ptr.adoptAs`). `c` is the
address the rebound allocator returns on line 306. Line 307 passes the `CB_BASE*` member
to `construct`, and such an allocator builds the `ControlBlock<U, Alloc, Deleter>` that
was allocated there, as the in-place constructor does through its cast on line 528. -/
def shared_ptr.adopt (ptr : Nat) (d : DeleterType) (alloc : Nat) (c : Nat) (m : Memory) :
    shared_ptr × Memory :=
  let m1 := m.allocate c Footprint.ControlBlock
  let m2 := m1.store c (ControlBlock.construct alloc d)
  ({ counter := c, ptr := ptr }, m2)

/-- The static pointee type of a pointer handed to `allocator_traits<A>::construct`. -/
inductive Pointee where
  /-- The abstract base `CB_BASE` (lines 37-52), the pointee type of the member `counter`. -/
  | CB_BASE
  /-- The concrete `ControlBlock<T, Alloc, Deleter>` (lines 57-126). -/
  | ControlBlock
  deriving DecidableEq, Repr

/-- How an allocator serves `allocator_traits<A>::construct(a, p, args...)`. -/
inductive AllocKind where
  /-- The allocator `std::allocator`: an object of the pointee type of `p` is built at `p`. -/
  | std
  /-- A user allocator whose own `construct` builds its `value_type` at whatever pointer
  it is given. -/
  | buildsValueType
  deriving DecidableEq, Repr

/-- The type that `allocator_traits<A>::construct(a, p, alloc, d)` builds at `p`, for an
allocator rebound to the control block type and a pointer `p` with the given pointee
type; `none` where the call is ill-formed: `CB_BASE` has pure virtual members (lines
40-50) and no constructor taking `(alloc, d)`, so no object of that type can be built. -/
def AllocKind.constructs (k : AllocKind) (pointee : Pointee) : Option Pointee :=
  match k, pointee with
  | AllocKind.std, Pointee.CB_BASE => none
  | AllocKind.std, Pointee.ControlBlock => some Pointee.ControlBlock
  | AllocKind.buildsValueType, _ => some Pointee.ControlBlock

/-- Lines 298-308 as instantiated for an allocator of kind `k`. Line 307 is
`construct(CBAlloc, counter, alloc, d)` with `counter` the `CB_BASE*` member: where that
call builds the control block the constructor runs as `shared_ptr.adopt`; where it is
ill-formed the constructor has no instantiation and there is no result. -/
def shared_ptr.adoptAs (k : AllocKind) (ptr : Nat) (d : DeleterType) (alloc c : Nat)
    (m : Memory) : Option (shared_ptr × Memory) :=
  match k.constructs Pointee.CB_BASE with
  | some Pointee.ControlBlock => some (shared_ptr.adopt ptr d alloc c m)
  | _ => none

/-- Lines 292-296, `shared_ptr(U* ptr, Deleter d)`: delegates to the three-argument
constructor with `std::allocator<U>()`, which the embedding numbers `0`. -/
def shared_ptr.adoptWithDeleter (ptr : Nat) (d : DeleterType) (c : Nat) (m : Memory) :
    Option (shared_ptr × Memory) :=
  shared_ptr.adoptAs AllocKind.std ptr d 0 c m

/-- Lines 286-290, `shared_ptr(U* ptr)`: delegates to the three-argument constructor with
`std::default_delete<U>()` and `std::allocator<U>()`. -/
def shared_ptr.adoptRaw (ptr : Nat) (c : Nat) (m : Memory) : Option (shared_ptr × Memory) :=
  shared_ptr.adoptAs AllocKind.std ptr DeleterType.default_delete 0 c m

/-- Lines 500-530, the private `shared_ptr(Alloc alloc, Args&&... args)`. `r` is the
address of the combined record returned by `allocate` on line 513, `off` the offset of
its `object` member, and `args` the value the payload constructor builds, or `none` when
it throws. A throw leaves the constructor at line 519; the error carries the heap as
it is then. -/
def shared_ptr.inPlace (alloc : Nat) (args : Option Int) (r off : Nat) (m : Memory) :
    Except Memory (shared_ptr × Memory) :=
  let m1 := m.allocate r Footprint.ControlData
  let counter := r
  let ptr := r + off
  match args with
  | none => Except.error m1
  | some v =>
    let m2 := { m1 with objects := Function.update m1.objects ptr (some v),
                        log := m1.log ++ [Event.construct ptr v] }
    let m3 := m2.emit Event.print
    let m4 := m3.store counter (ControlBlock.construct alloc DeleterType.DefaultDeleter)
    Except.ok ({ counter := counter, ptr := ptr }, m4)

/-- Lines 16-19, `allocate_shared<T>(alloc, args...)`: returns the in-place constructed
handle as a prvalue. -/
def smart_ptr.allocate_shared (alloc : Nat) (args : Option Int) (r off : Nat) (m : Memory) :
    Except Memory (shared_ptr × Memory) :=
  shared_ptr.inPlace alloc args r off m

/-- Lines 22-25, `make_shared<T>(args...)`: as `allocate_shared` with `std::allocator<T>()`. -/
def smart_ptr.make_shared (args : Option Int) (r off : Nat) (m : Memory) :
    Except Memory (shared_ptr × Memory) :=
  shared_ptr.inPlace 0 args r off m

/-- Lines 310-313 (and the converting form on 315-319, whose body is the same):
`counter(another.counter), ptr(another.ptr)` then `counter->SharedCountInc()`. -/
def shared_ptr.copy (another : shared_ptr) (m : Memory) : Except Fault (shared_ptr × Memory) := do
  let self : shared_ptr := { counter := another.counter, ptr := another.ptr }
  let m1 ← CB_BASE.SharedCountInc self.counter m
  pure (self, m1)

/-- Lines 321-325 (and the converting form on 327-332, whose body is the same):
`counter(another.counter), ptr(another.ptr)`, then `another.counter = nullptr;` and
`ptr = nullptr;`. The second assignment names the member of the object under
construction. Returns the new handle and the source as it is left. -/
def shared_ptr.move (another : shared_ptr) : shared_ptr × shared_ptr :=
  let self : shared_ptr := { counter := another.counter, ptr := another.ptr }
  let another1 : shared_ptr := { another with counter := 0 }
  let self1 : shared_ptr := { self with ptr := 0 }
  (self1, another1)

/-- Lines 334-359, `~shared_ptr()`. -/
def shared_ptr.dtor (self : shared_ptr) (m : Memory) : Except Fault Memory := do
  let m1 ← CB_BASE.SharedCountDec self.counter m
  let sc ← CB_BASE.GetSharedCount self.counter m1
  let wc ← CB_BASE.GetWeakCount self.counter m1
  if sc = 0 ∧ wc = 0 then
    let m2 ← CB_BASE.call self.counter self.ptr m1
    CB_BASE.destroy self.counter m2
  else if sc = 0 ∧ wc > 0 then
    CB_BASE.call self.counter self.ptr m1
  else
    pure m1

/-- Lines 362-366, `shared_ptr(const weak_ptr<U>& another)`: the member initialisers
are `ptr(ptr), counter(counter)`, so each member is initialised from itself and
`another` is not read. `uninit` is whatever the storage of the new object held. -/
def shared_ptr.fromWeak (uninit : shared_ptr) (_another : weak_ptr) (m : Memory) :
    Except Fault (shared_ptr × Memory) := do
  let self : shared_ptr := { counter := uninit.counter, ptr := uninit.ptr }
  let m1 ← CB_BASE.SharedCountInc self.counter m
  pure (self, m1)

/-- Lines 237-240, `swap`: returns the new `*this` and the new `rhs`. -/
def shared_ptr.swap (self rhs : shared_ptr) : shared_ptr × shared_ptr :=
  ({ counter := rhs.counter, ptr := rhs.ptr }, { counter := self.counter, ptr := self.ptr })

/-- Lines 260-262, `get()`. -/
def shared_ptr.get (self : shared_ptr) : Nat := self.ptr

/-- Lines 252-254, `operator*`: `*(ptr)`. -/
def shared_ptr.deref (self : shared_ptr) (m : Memory) : Except Fault Int :=
  if self.ptr = 0 then Except.error Fault.nullDeref
  else match m.objects self.ptr with
    | some v => Except.ok v
    | none => Except.error Fault.danglingDeref

/-- Lines 264-266, `use_count()`. -/
def shared_ptr.use_count (self : shared_ptr) (m : Memory) : Except Fault Nat :=
  CB_BASE.GetSharedCount self.counter m

/-- Lines 268-270, `weak_count()`. -/
def shared_ptr.weak_count (self : shared_ptr) (m : Memory) : Except Fault Nat :=
  CB_BASE.GetWeakCount self.counter m

/-- Lines 272-274, `operator bool`: `get() == nullptr ? false : true`. -/
def shared_ptr.toBool (self : shared_ptr) : Bool :=
  if self.get = 0 then false else true

/-! ## `weak_ptr<T>` (lines 368-496) -/

/-- Lines 450-452, `weak_ptr()`: `ptr(nullptr), counter(nullptr)`. -/
def weak_ptr.default : weak_ptr := { counter := 0, ptr := 0 }

/-- Lines 454-463, copy construction (both forms): `counter->WeakCountInc()`. -/
def weak_ptr.copy (another : weak_ptr) (m : Memory) : Except Fault (weak_ptr × Memory) := do
  let self : weak_ptr := { counter := another.counter, ptr := another.ptr }
  let m1 ← CB_BASE.WeakCountInc self.counter m
  pure (self, m1)

/-- Lines 487-496, `weak_ptr(const shared_ptr<U>& another)` (both forms):
`ptr(another.ptr), counter(another.counter)` then `counter->WeakCountInc()`. -/
def weak_ptr.fromShared (another : shared_ptr) (m : Memory) : Except Fault (weak_ptr × Memory) := do
  let self : weak_ptr := { counter := another.counter, ptr := another.ptr }
  let m1 ← CB_BASE.WeakCountInc self.counter m
  pure (self, m1)

/-- Lines 465-469, `weak_ptr(weak_ptr&& another)`: both fields taken over, both fields
of the source set to null. Returns the new handle and the source as it is left. -/
def weak_ptr.move (another : weak_ptr) : weak_ptr × weak_ptr :=
  ({ counter := another.counter, ptr := another.ptr }, { counter := 0, ptr := 0 })

/-- Lines 471-476, `weak_ptr(weak_ptr<U>&& another)`: `counter(another.counter), ptr(ptr)`;
the payload pointer is initialised from itself, `uninit` being what the storage held. -/
def weak_ptr.moveConverting (uninit : Nat) (another : weak_ptr) : weak_ptr × weak_ptr :=
  ({ counter := another.counter, ptr := uninit }, { counter := 0, ptr := 0 })

/-- Lines 478-485, `~weak_ptr()`. -/
def weak_ptr.dtor (self : weak_ptr) (m : Memory) : Except Fault Memory := do
  let m1 ← CB_BASE.WeakCountDec self.counter m
  let sc ← CB_BASE.GetSharedCount self.counter m1
  let wc ← CB_BASE.GetWeakCount self.counter m1
  if sc = 0 ∧ wc = 0 then
    CB_BASE.destroy self.counter m1
  else
    pure m1

/-- Lines 396-398, `use_count()`. -/
def weak_ptr.use_count (self : weak_ptr) (m : Memory) : Except Fault Nat :=
  CB_BASE.GetSharedCount self.counter m

/-- Lines 400-402, `weak_count()`. -/
def weak_ptr.weak_count (self : weak_ptr) (m : Memory) : Except Fault Nat :=
  CB_BASE.GetWeakCount self.counter m

/-- Lines 404-406, `expired()`: `counter->GetSharedCount() == 0`. -/
def weak_ptr.expired (self : weak_ptr) (m : Memory) : Except Fault Bool := do
  let sc ← CB_BASE.GetSharedCount self.counter m
  pure (decide (sc = 0))

/-- Lines 408-410, `lock()`. The body names `shared_ptr<T>::shared_count(*this)`, which
is no member of `shared_ptr`; the embedding takes it as the explicit constructor from a
`weak_ptr` on lines 362-366, the only `shared_ptr` operation that accepts one. -/
def weak_ptr.lock (uninit : shared_ptr) (self : weak_ptr) (m : Memory) :
    Except Fault (shared_ptr × Memory) :=
  shared_ptr.fromWeak uninit self m

/-- Lines 412-415, `swap`. -/
def weak_ptr.swap (self another : weak_ptr) : weak_ptr × weak_ptr :=
  ({ counter := another.counter, ptr := another.ptr }, { counter := self.counter, ptr := self.ptr })

/-! ## Assignment operators (lines 242-250 and 417-441) -/

/-- How a call of a member function that returns a reference ends. -/
inductive Completion (α : Type) where
  /-- A `return` statement was executed, in this state. -/
  | returned (a : α)
  /-- Control reached the closing brace of the body, in this state, without a `return`. -/
  | fellOffEnd (a : α)
  /-- A statement of the body had no defined behaviour. -/
  | faulted (f : Fault)

/-- The state in which the body was left, when no statement of it faulted. -/
def Completion.state {α : Type} : Completion α → Option α
  | Completion.returned a => some a
  | Completion.fellOffEnd a => some a
  | Completion.faulted _ => none

/-- Whether the call ended in a `return` statement. -/
def Completion.isReturned {α : Type} : Completion α → Bool
  | Completion.returned _ => true
  | Completion.fellOffEnd _ => false
  | Completion.faulted _ => false

/-- Lines 242-246, `shared_ptr& operator=(const shared_ptr& rhs)`. The body is the one
statement `shared_ptr(rhs).swap(*this);`: a temporary is copy-constructed from `rhs`,
swapped with `*this`, and destroyed at the end of the statement. The closing brace
follows; the body has no `return`. The result carries `*this` and the heap. -/
def shared_ptr.assign (self rhs : shared_ptr) (m : Memory) : Completion (shared_ptr × Memory) :=
  match shared_ptr.copy rhs m with
  | Except.error f => Completion.faulted f
  | Except.ok (tmp, m1) =>
    match shared_ptr.dtor (shared_ptr.swap tmp self).1 m1 with
    | Except.error f => Completion.faulted f
    | Except.ok m2 => Completion.fellOffEnd ((shared_ptr.swap tmp self).2, m2)

/-- Lines 417-421, `weak_ptr& operator=(const weak_ptr& rhs)` (the converting form on
423-428 has the same body): `weak_ptr<T>(rhs).swap(*this);` then `return *this;`. -/
def weak_ptr.assign (self rhs : weak_ptr) (m : Memory) : Completion (weak_ptr × Memory) :=
  match weak_ptr.copy rhs m with
  | Except.error f => Completion.faulted f
  | Except.ok (tmp, m1) =>
    match weak_ptr.dtor (weak_ptr.swap tmp self).1 m1 with
    | Except.error f => Completion.faulted f
    | Except.ok m2 => Completion.returned ((weak_ptr.swap tmp self).2, m2)

/-! ## Client programs

A client program owns handle variables and applies the operations above to them. The
variables are kept in two lists; an operation names its operand by position. A copy or
a move appends the new handle, a move also rewrites its source in place, and a
destruction runs the destructor and removes the variable. -/

namespace Client

/-- The heap together with the handle variables currently alive. -/
structure State where
  mem : Memory
  shared : List shared_ptr
  weak : List weak_ptr

/-- One statement of a client program. -/
inductive Op
  /-- Copy-construct a `shared_ptr` from the `i`-th one. -/
  | copyShared (i : Nat)
  /-- Move-construct a `shared_ptr` from the `i`-th one. -/
  | moveShared (i : Nat)
  /-- Destroy the `i`-th `shared_ptr`. -/
  | destroyShared (i : Nat)
  /-- Construct a `weak_ptr` from the `i`-th `shared_ptr`. -/
  | weakFromShared (i : Nat)
  /-- Copy-construct a `weak_ptr` from the `j`-th one. -/
  | copyWeak (j : Nat)
  /-- Move-construct a `weak_ptr` from the `j`-th one (same payload type). -/
  | moveWeak (j : Nat)
  /-- Move-construct a `weak_ptr` from the `j`-th one (converting form). -/
  | moveWeakConverting (j : Nat) (uninit : Nat)
  /-- Destroy the `j`-th `weak_ptr`. -/
  | destroyWeak (j : Nat)
  deriving DecidableEq, Repr

/-- Execute one statement. -/
def step (s : State) : Op → Except Fault State
  | Op.copyShared i =>
    match s.shared[i]? with
    | none => Except.error Fault.noSuchHandle
    | some h =>
      match shared_ptr.copy h s.mem with
      | Except.error f => Except.error f
      | Except.ok (h1, m1) => Except.ok { s with mem := m1, shared := s.shared ++ [h1] }
  | Op.moveShared i =>
    match s.shared[i]? with
    | none => Except.error Fault.noSuchHandle
    | some h =>
      Except.ok { s with shared := s.shared.set i (shared_ptr.move h).2 ++ [(shared_ptr.move h).1] }
  | Op.destroyShared i =>
    match s.shared[i]? with
    | none => Except.error Fault.noSuchHandle
    | some h =>
      match shared_ptr.dtor h s.mem with
      | Except.error f => Except.error f
      | Except.ok m1 => Except.ok { s with mem := m1, shared := s.shared.eraseIdx i }
  | Op.weakFromShared i =>
    match s.shared[i]? with
    | none => Except.error Fault.noSuchHandle
    | some h =>
      match weak_ptr.fromShared h s.mem with
      | Except.error f => Except.error f
      | Except.ok (w1, m1) => Except.ok { s with mem := m1, weak := s.weak ++ [w1] }
  | Op.copyWeak j =>
    match s.weak[j]? with
    | none => Except.error Fault.noSuchHandle
    | some w =>
      match weak_ptr.copy w s.mem with
      | Except.error f => Except.error f
      | Except.ok (w1, m1) => Except.ok { s with mem := m1, weak := s.weak ++ [w1] }
  | Op.moveWeak j =>
    match s.weak[j]? with
    | none => Except.error Fault.noSuchHandle
    | some w =>
      Except.ok { s with weak := s.weak.set j (weak_ptr.move w).2 ++ [(weak_ptr.move w).1] }
  | Op.moveWeakConverting j u =>
    match s.weak[j]? with
    | none => Except.error Fault.noSuchHandle
    | some w =>
      Except.ok { s with weak := s.weak.set j (weak_ptr.moveConverting u w).2
                                   ++ [(weak_ptr.moveConverting u w).1] }
  | Op.destroyWeak j =>
    match s.weak[j]? with
    | none => Except.error Fault.noSuchHandle
    | some w =>
      match weak_ptr.dtor w s.mem with
      | Except.error f => Except.error f
      | Except.ok m1 => Except.ok { s with mem := m1, weak := s.weak.eraseIdx j }

/-- Execute a sequence of statements, stopping at the first fault. -/
def run (s : State) : List Op → Except Fault State
  | [] => Except.ok s
  | op :: ops =>
    match step s op with
    | Except.error f => Except.error f
    | Except.ok s1 => run s1 ops

/-- Number of live `shared_ptr` variables whose control-block pointer is `c`. -/
def State.sharedOn (s : State) (c : Nat) : Nat :=
  s.shared.countP (fun h => decide (h.counter = c))

/-- Number of live `weak_ptr` variables whose control-block pointer is `c`. -/
def State.weakOn (s : State) (c : Nat) : Nat :=
  s.weak.countP (fun w => decide (w.counter = c))

/-- The program state right after `shared_ptr<T> a(ptr, d, alloc)` on heap `m`. -/
def adopted (ptr : Nat) (d : DeleterType) (alloc c : Nat) (m : Memory) : State :=
  { mem := (shared_ptr.adopt ptr d alloc c m).2, shared := [(shared_ptr.adopt ptr d alloc c m).1],
    weak := [] }

/-- The program state right after `auto a = allocate_shared<T>(alloc, v)` on heap `m`;
`args = none` is a payload constructor that throws, which leaves no handle. -/
def inPlaced (alloc : Nat) (args : Option Int) (r off : Nat) (m : Memory) : State :=
  match smart_ptr.allocate_shared alloc args r off m with
  | Except.ok (a, m1) => { mem := m1, shared := [a], weak := [] }
  | Except.error m1 => { mem := m1, shared := [], weak := [] }

/-- Number of `counter->destroy()` calls on the control block at `c` in a log. -/
def destroyCalls (c : Nat) (log : List Event) : Nat :=
  log.count (Event.callDestroy c)

/-- Number of `counter->operator()(p)` calls on the control block at `c` in a log. -/
def deleterCalls (c : Nat) (log : List Event) : Nat :=
  log.countP (fun e => match e with
    | Event.callDeleter cb _ => decide (cb = c)
    | _ => false)

/-- Number of `counter->operator()(p)` calls on the control block at `c` with argument `p`. -/
def deleterCallsOn (c p : Nat) (log : List Event) : Nat :=
  log.count (Event.callDeleter c p)

/-- The state a program ends in, or the state it started from when it faults. -/
def final (s0 : State) (ops : List Op) : State :=
  (run s0 ops).toOption.getD s0

/-- A heap that holds one payload object, the value `42` at address `7`, and nothing else. -/
def demoHeap : Memory :=
  { blocks := fun _ => none, objects := Function.update (fun _ => none) 7 (some 42),
    allocs := fun _ => none, log := [] }

/-- The program state after the three-argument `shared_ptr<int> a(p, d, alloc)` with
`p = 7` and `d` a `std::default_delete<int>` on `demoHeap`, the control block being
allocated at address `1`. -/
def demoAdopted : State :=
  adopted 7 DeleterType.default_delete 0 1 demoHeap

/-- Bookkeeping of the group whose control block sits at `c`, `k` being the number of
`destroy()` calls on address `c` logged before the group was created: while the block
is constructed its two counters are the numbers of live handles on it (as `size_t`
values), some handle is left, and `destroy()` has not been called; once it is gone,
`destroy()` has been called once and both handle counts are `0` as `size_t` values. -/
def GroupInv (c k : Nat) (s : State) : Prop :=
  (∀ b, s.mem.blocks c = some b →
      b.shared_count = s.sharedOn c % SIZE_RANGE ∧ b.weak_count = s.weakOn c % SIZE_RANGE ∧
      (s.sharedOn c ≠ 0 ∨ s.weakOn c ≠ 0) ∧ destroyCalls c s.mem.log = k) ∧
  (s.mem.blocks c = none →
      s.sharedOn c % SIZE_RANGE = 0 ∧ s.weakOn c % SIZE_RANGE = 0 ∧
      destroyCalls c s.mem.log = k + 1)

/-- Every handle variable of the program is empty of a control block or points at `c`. -/
def HandlesInv (c : Nat) (s : State) : Prop :=
  (∀ h ∈ s.shared, h.counter = 0 ∨ h.counter = c) ∧
  (∀ w ∈ s.weak, w.counter = 0 ∨ w.counter = c)

/-- What the log and the handles of the group at `c` look like when the group was created
around payload pointer `p` with a deleter of type `d`, `log0` being the log right after
its creation: every `shared_ptr` of the group holds `p`, the block keeps its deleter
type, and the log is `log0` while a `shared_ptr` of the group is left, `log0` followed by
the deleter call on `p` while only `weak_ptr`s are left, and that followed by the
`destroy()` call and its deallocation once no handle is left. -/
def LogInv (c p : Nat) (d : DeleterType) (log0 : List Event) (s : State) : Prop :=
  (∀ h ∈ s.shared, h.counter = c → h.ptr = p) ∧
  (∀ b, s.mem.blocks c = some b → b.deleter = d) ∧
  (0 < s.sharedOn c → s.mem.log = log0) ∧
  (s.sharedOn c = 0 → 0 < s.weakOn c →
      s.mem.log = log0 ++ [Event.callDeleter c p, d.event p]) ∧
  (s.sharedOn c = 0 → s.weakOn c = 0 →
      s.mem.log = log0 ++ [Event.callDeleter c p, d.event p, Event.callDestroy c,
        Event.deallocate c (if d = DeleterType.DefaultDeleter then Footprint.ControlData
          else Footprint.ControlBlock)])

end Client

open Client

/-! ## Basic facts about the heap -/

theorem SIZE_RANGE_eq : SIZE_RANGE = 18446744073709551616 := by
  norm_num [SIZE_RANGE]

theorem load_of_block {m : Memory} {c : Nat} {b : ControlBlock}
    (hc : c ≠ 0) (hb : m.blocks c = some b) : m.load c = Except.ok b := by
  simp [Memory.load, hc, hb]

theorem load_null (m : Memory) : m.load 0 = Except.error Fault.nullDeref := by
  simp [Memory.load]

theorem load_dangling {m : Memory} {c : Nat} (hc : c ≠ 0) (hb : m.blocks c = none) :
    m.load c = Except.error Fault.danglingDeref := by
  simp [Memory.load, hc, hb]

theorem load_ok_iff {m : Memory} {c : Nat} {b : ControlBlock} :
    m.load c = Except.ok b ↔ c ≠ 0 ∧ m.blocks c = some b := by
  unfold Memory.load
  by_cases hc : c = 0
  · simp [hc]
  · cases hb : m.blocks c <;> simp [hc]

theorem load_cases (m : Memory) (c : Nat) :
    (c = 0 ∧ m.load c = Except.error Fault.nullDeref) ∨
    (c ≠ 0 ∧ m.blocks c = none ∧ m.load c = Except.error Fault.danglingDeref) ∨
    (∃ b, c ≠ 0 ∧ m.blocks c = some b ∧ m.load c = Except.ok b) := by
  by_cases hc : c = 0
  · left; exact ⟨hc, by simp [Memory.load, hc]⟩
  · cases hb : m.blocks c with
    | none => right; left; exact ⟨hc, rfl, load_dangling hc hb⟩
    | some b => right; right; exact ⟨b, hc, rfl, load_of_block hc hb⟩

theorem run_log (d : DeleterType) (p : Nat) (m : Memory) :
    (d.run p m).log = m.log ++ [d.event p] := by
  cases d <;> rfl

theorem run_blocks (d : DeleterType) (p : Nat) (m : Memory) :
    (d.run p m).blocks = m.blocks := by
  cases d <;> rfl

theorem run_allocs (d : DeleterType) (p : Nat) (m : Memory) :
    (d.run p m).allocs = m.allocs := by
  cases d <;> rfl

/-! ## What each operation does on a live control block -/

theorem shared_copy_ok {m : Memory} {c : Nat} {b : ControlBlock} (p : Nat)
    (hc : c ≠ 0) (hb : m.blocks c = some b) :
    shared_ptr.copy { counter := c, ptr := p } m
      = Except.ok ({ counter := c, ptr := p }, m.store c b.SharedCountInc) := by
  simp [shared_ptr.copy, CB_BASE.SharedCountInc, load_of_block hc hb, bind, Except.bind, pure,
    Except.pure]

theorem shared_copy_inv {h h1 : shared_ptr} {m m1 : Memory}
    (hk : shared_ptr.copy h m = Except.ok (h1, m1)) :
    ∃ b, h.counter ≠ 0 ∧ m.blocks h.counter = some b ∧ h1 = h ∧
      m1 = m.store h.counter b.SharedCountInc := by
  rcases load_cases m h.counter with ⟨_, hl⟩ | ⟨_, _, hl⟩ | ⟨b, hc, hb, hl⟩
  · simp [shared_ptr.copy, CB_BASE.SharedCountInc, hl, bind, Except.bind] at hk
  · simp [shared_ptr.copy, CB_BASE.SharedCountInc, hl, bind, Except.bind] at hk
  · refine ⟨b, hc, hb, ?_⟩
    simp [shared_ptr.copy, CB_BASE.SharedCountInc, hl, bind, Except.bind, pure, Except.pure] at hk
    exact ⟨hk.1.symm, hk.2.symm⟩

theorem weak_fromShared_ok {m : Memory} {c : Nat} {b : ControlBlock} (p : Nat)
    (hc : c ≠ 0) (hb : m.blocks c = some b) :
    weak_ptr.fromShared { counter := c, ptr := p } m
      = Except.ok ({ counter := c, ptr := p }, m.store c b.WeakCountInc) := by
  simp [weak_ptr.fromShared, CB_BASE.WeakCountInc, load_of_block hc hb, bind, Except.bind, pure,
    Except.pure]

theorem weak_fromShared_inv {h : shared_ptr} {w1 : weak_ptr} {m m1 : Memory}
    (hk : weak_ptr.fromShared h m = Except.ok (w1, m1)) :
    ∃ b, h.counter ≠ 0 ∧ m.blocks h.counter = some b ∧
      w1 = { counter := h.counter, ptr := h.ptr } ∧
      m1 = m.store h.counter b.WeakCountInc := by
  rcases load_cases m h.counter with ⟨_, hl⟩ | ⟨_, _, hl⟩ | ⟨b, hc, hb, hl⟩
  · simp [weak_ptr.fromShared, CB_BASE.WeakCountInc, hl, bind, Except.bind] at hk
  · simp [weak_ptr.fromShared, CB_BASE.WeakCountInc, hl, bind, Except.bind] at hk
  · refine ⟨b, hc, hb, ?_⟩
    simp [weak_ptr.fromShared, CB_BASE.WeakCountInc, hl, bind, Except.bind, pure,
      Except.pure] at hk
    exact ⟨hk.1.symm, hk.2.symm⟩

theorem weak_copy_ok {m : Memory} {c : Nat} {b : ControlBlock} (p : Nat)
    (hc : c ≠ 0) (hb : m.blocks c = some b) :
    weak_ptr.copy { counter := c, ptr := p } m
      = Except.ok ({ counter := c, ptr := p }, m.store c b.WeakCountInc) := by
  simp [weak_ptr.copy, CB_BASE.WeakCountInc, load_of_block hc hb, bind, Except.bind, pure,
    Except.pure]

theorem weak_copy_inv {w w1 : weak_ptr} {m m1 : Memory}
    (hk : weak_ptr.copy w m = Except.ok (w1, m1)) :
    ∃ b, w.counter ≠ 0 ∧ m.blocks w.counter = some b ∧ w1 = w ∧
      m1 = m.store w.counter b.WeakCountInc := by
  rcases load_cases m w.counter with ⟨_, hl⟩ | ⟨_, _, hl⟩ | ⟨b, hc, hb, hl⟩
  · simp [weak_ptr.copy, CB_BASE.WeakCountInc, hl, bind, Except.bind] at hk
  · simp [weak_ptr.copy, CB_BASE.WeakCountInc, hl, bind, Except.bind] at hk
  · refine ⟨b, hc, hb, ?_⟩
    simp [weak_ptr.copy, CB_BASE.WeakCountInc, hl, bind, Except.bind, pure, Except.pure] at hk
    exact ⟨hk.1.symm, hk.2.symm⟩

theorem store_load (m : Memory) (c : Nat) (b : ControlBlock) (hc : c ≠ 0) :
    (m.store c b).load c = Except.ok b := by
  simp [Memory.store, Memory.load, hc]

theorem CB_SharedCountInc_ok {m : Memory} {c : Nat} {b : ControlBlock}
    (hc : c ≠ 0) (hb : m.blocks c = some b) :
    CB_BASE.SharedCountInc c m = Except.ok (m.store c b.SharedCountInc) := by
  simp [CB_BASE.SharedCountInc, load_of_block hc hb, bind, Except.bind, pure, Except.pure]

theorem CB_SharedCountDec_ok {m : Memory} {c : Nat} {b : ControlBlock}
    (hc : c ≠ 0) (hb : m.blocks c = some b) :
    CB_BASE.SharedCountDec c m = Except.ok (m.store c b.SharedCountDec) := by
  simp [CB_BASE.SharedCountDec, load_of_block hc hb, bind, Except.bind, pure, Except.pure]

theorem CB_WeakCountInc_ok {m : Memory} {c : Nat} {b : ControlBlock}
    (hc : c ≠ 0) (hb : m.blocks c = some b) :
    CB_BASE.WeakCountInc c m = Except.ok (m.store c b.WeakCountInc) := by
  simp [CB_BASE.WeakCountInc, load_of_block hc hb, bind, Except.bind, pure, Except.pure]

theorem CB_WeakCountDec_ok {m : Memory} {c : Nat} {b : ControlBlock}
    (hc : c ≠ 0) (hb : m.blocks c = some b) :
    CB_BASE.WeakCountDec c m = Except.ok (m.store c b.WeakCountDec) := by
  simp [CB_BASE.WeakCountDec, load_of_block hc hb, bind, Except.bind, pure, Except.pure]

theorem CB_GetSharedCount_ok {m : Memory} {c : Nat} {b : ControlBlock}
    (hc : c ≠ 0) (hb : m.blocks c = some b) :
    CB_BASE.GetSharedCount c m = Except.ok b.shared_count := by
  simp [CB_BASE.GetSharedCount, load_of_block hc hb, bind, Except.bind, pure, Except.pure,
    ControlBlock.GetSharedCount]

theorem CB_GetWeakCount_ok {m : Memory} {c : Nat} {b : ControlBlock}
    (hc : c ≠ 0) (hb : m.blocks c = some b) :
    CB_BASE.GetWeakCount c m = Except.ok b.weak_count := by
  simp [CB_BASE.GetWeakCount, load_of_block hc hb, bind, Except.bind, pure, Except.pure,
    ControlBlock.GetWeakCount]

theorem CB_call_ok {m : Memory} {c : Nat} {b : ControlBlock} (p : Nat)
    (hc : c ≠ 0) (hb : m.blocks c = some b) :
    CB_BASE.call c p m = Except.ok (b.deleter.run p (m.emit (Event.callDeleter c p))) := by
  simp [CB_BASE.call, load_of_block hc hb, bind, Except.bind, pure, Except.pure]

theorem CB_destroy_ok {m : Memory} {c : Nat} {b : ControlBlock}
    (hc : c ≠ 0) (hb : m.blocks c = some b) :
    CB_BASE.destroy c m = Except.ok
      (Memory.deallocate
        { m.emit (Event.callDestroy c) with
          blocks := Function.update (m.emit (Event.callDestroy c)).blocks c none }
        c (if b.deleter = DeleterType.DefaultDeleter then Footprint.ControlData
           else Footprint.ControlBlock)) := by
  by_cases hd : b.deleter = DeleterType.DefaultDeleter <;>
    simp [CB_BASE.destroy, load_of_block hc hb, bind, Except.bind, pure, Except.pure, hd]

theorem store_blocks_same (m : Memory) (c : Nat) (b : ControlBlock) :
    (m.store c b).blocks c = some b := by
  simp [Memory.store]

/-- The destructor of a non-empty `shared_ptr` on a live control block, field by field. -/
theorem shared_dtor_spec {m : Memory} {c : Nat} {b : ControlBlock} (p : Nat)
    (hc : c ≠ 0) (hb : m.blocks c = some b) :
    ∃ m1, shared_ptr.dtor { counter := c, ptr := p } m = Except.ok m1 ∧
      m1.blocks = Function.update m.blocks c
        (if b.SharedCountDec.shared_count = 0 ∧ b.weak_count = 0 then none
         else some b.SharedCountDec) ∧
      m1.log = m.log
        ++ (if b.SharedCountDec.shared_count = 0
            then [Event.callDeleter c p, b.deleter.event p] else [])
        ++ (if b.SharedCountDec.shared_count = 0 ∧ b.weak_count = 0
            then [Event.callDestroy c,
                  Event.deallocate c (if b.deleter = DeleterType.DefaultDeleter
                    then Footprint.ControlData else Footprint.ControlBlock)]
            else []) ∧
      m1.objects = (if b.SharedCountDec.shared_count = 0 then (b.deleter.run p m).objects
                    else m.objects) ∧
      m1.allocs = (if b.SharedCountDec.shared_count = 0 ∧ b.weak_count = 0
                   then Function.update m.allocs c none else m.allocs) := by
  have hw : b.SharedCountDec.weak_count = b.weak_count := by cases b; rfl
  have hd : b.SharedCountDec.deleter = b.deleter := by cases b; rfl
  have hm1 : (m.store c b.SharedCountDec).blocks c = some b.SharedCountDec := by
    simp [Memory.store]
  have hrun : ((b.deleter.run p ((m.store c b.SharedCountDec).emit (Event.callDeleter c p))).blocks c)
      = some b.SharedCountDec := by
    rw [run_blocks]; simp [Memory.store, Memory.emit]
  have hw : b.SharedCountDec.weak_count = b.weak_count := by cases b; rfl
  have hd : b.SharedCountDec.deleter = b.deleter := by cases b; rfl
  have hm1 := store_blocks_same m c b.SharedCountDec
  have hrun : ((b.deleter.run p ((m.store c b.SharedCountDec).emit (Event.callDeleter c p))).blocks c)
      = some b.SharedCountDec := by
    rw [run_blocks]; simp [Memory.store, Memory.emit]
  unfold shared_ptr.dtor
  simp only [CB_SharedCountDec_ok hc hb, CB_GetSharedCount_ok hc hm1, CB_GetWeakCount_ok hc hm1,
    CB_call_ok p hc hm1, bind, Except.bind, hw, hd, CB_destroy_ok hc hrun, pure, Except.pure]
  by_cases h0 : b.SharedCountDec.shared_count = 0
  · by_cases hw0 : b.weak_count = 0
    · simp only [h0, hw0, and_self, if_true]
      refine ⟨_, rfl, ?_, ?_, ?_, ?_⟩
      · simp [Memory.deallocate, Memory.emit, run_blocks, Memory.store]
      · simp [Memory.deallocate, Memory.emit, run_log, Memory.store]
      · cases hdel : b.deleter <;> rfl
      · simp [Memory.deallocate, Memory.emit, run_allocs, Memory.store]
    · have hpos : 0 < b.weak_count := Nat.pos_of_ne_zero hw0
      simp only [h0, hw0, and_false, if_false, hpos, and_self, if_true, true_and]
      refine ⟨_, rfl, ?_, ?_, ?_, ?_⟩
      · simp [Memory.emit, run_blocks, Memory.store]
      · simp [Memory.emit, run_log, Memory.store]
      · cases hdel : b.deleter <;> rfl
      · simp [Memory.emit, run_allocs, Memory.store]
  · simp only [h0, false_and, if_false]
    exact ⟨_, rfl, by simp [Memory.store], by simp [Memory.store], rfl, rfl⟩

/-- The destructor of a non-empty `weak_ptr` on a live control block, field by field. -/
theorem weak_dtor_spec {m : Memory} {c : Nat} {b : ControlBlock} (p : Nat)
    (hc : c ≠ 0) (hb : m.blocks c = some b) :
    ∃ m1, weak_ptr.dtor { counter := c, ptr := p } m = Except.ok m1 ∧
      m1.blocks = Function.update m.blocks c
        (if b.shared_count = 0 ∧ b.WeakCountDec.weak_count = 0 then none
         else some b.WeakCountDec) ∧
      m1.log = m.log
        ++ (if b.shared_count = 0 ∧ b.WeakCountDec.weak_count = 0
            then [Event.callDestroy c,
                  Event.deallocate c (if b.deleter = DeleterType.DefaultDeleter
                    then Footprint.ControlData else Footprint.ControlBlock)]
            else []) ∧
      m1.objects = m.objects ∧
      m1.allocs = (if b.shared_count = 0 ∧ b.WeakCountDec.weak_count = 0
                   then Function.update m.allocs c none else m.allocs) := by
  have hs : b.WeakCountDec.shared_count = b.shared_count := by cases b; rfl
  have hd : b.WeakCountDec.deleter = b.deleter := by cases b; rfl
  have hm1 := store_blocks_same m c b.WeakCountDec
  unfold weak_ptr.dtor
  simp only [CB_WeakCountDec_ok hc hb, CB_GetSharedCount_ok hc hm1, CB_GetWeakCount_ok hc hm1,
    bind, Except.bind, hs, hd, CB_destroy_ok hc hm1, pure, Except.pure]
  by_cases h0 : b.shared_count = 0 ∧ b.WeakCountDec.weak_count = 0
  · simp only [h0, and_self, if_true]
    refine ⟨_, rfl, ?_, ?_, ?_, ?_⟩
    · simp [Memory.deallocate, Memory.emit, Memory.store]
    · simp [Memory.deallocate, Memory.emit, Memory.store]
    · rfl
    · simp [Memory.deallocate, Memory.emit, Memory.store]
  · simp only [h0, if_false]
    exact ⟨_, rfl, by simp [Memory.store], by simp [Memory.store], rfl, rfl⟩

theorem shared_dtor_null (p : Nat) (m : Memory) :
    shared_ptr.dtor { counter := 0, ptr := p } m = Except.error Fault.nullDeref := by
  simp [shared_ptr.dtor, CB_BASE.SharedCountDec, load_null, bind, Except.bind]

theorem weak_dtor_null (p : Nat) (m : Memory) :
    weak_ptr.dtor { counter := 0, ptr := p } m = Except.error Fault.nullDeref := by
  simp [weak_ptr.dtor, CB_BASE.WeakCountDec, load_null, bind, Except.bind]

theorem shared_dtor_inv {h : shared_ptr} {m m1 : Memory}
    (hk : shared_ptr.dtor h m = Except.ok m1) :
    ∃ b, h.counter ≠ 0 ∧ m.blocks h.counter = some b := by
  rcases load_cases m h.counter with ⟨_, hl⟩ | ⟨_, _, hl⟩ | ⟨b, hc, hb, _⟩
  · simp [shared_ptr.dtor, CB_BASE.SharedCountDec, hl, bind, Except.bind] at hk
  · simp [shared_ptr.dtor, CB_BASE.SharedCountDec, hl, bind, Except.bind] at hk
  · exact ⟨b, hc, hb⟩

theorem weak_dtor_inv {w : weak_ptr} {m m1 : Memory}
    (hk : weak_ptr.dtor w m = Except.ok m1) :
    ∃ b, w.counter ≠ 0 ∧ m.blocks w.counter = some b := by
  rcases load_cases m w.counter with ⟨_, hl⟩ | ⟨_, _, hl⟩ | ⟨b, hc, hb, _⟩
  · simp [weak_ptr.dtor, CB_BASE.WeakCountDec, hl, bind, Except.bind] at hk
  · simp [weak_ptr.dtor, CB_BASE.WeakCountDec, hl, bind, Except.bind] at hk
  · exact ⟨b, hc, hb⟩

/-! ## Counting handles in a list -/

theorem countP_set_add {α : Type} (q : α → Bool) (l : List α) (i : Nat) (a x : α)
    (hx : l[i]? = some x) :
    (l.set i a).countP q + (if q x then 1 else 0) = l.countP q + (if q a then 1 else 0) := by
  induction l generalizing i with
  | nil => simp at hx
  | cons y ys ih =>
    cases i with
    | zero =>
      simp only [List.getElem?_cons_zero, Option.some.injEq] at hx
      subst hx
      simp only [List.set_cons_zero, List.countP_cons]
      omega
    | succ k =>
      simp only [List.getElem?_cons_succ] at hx
      have := ih k hx
      simp only [List.set_cons_succ, List.countP_cons]
      omega

theorem countP_eraseIdx_add {α : Type} (q : α → Bool) (l : List α) (i : Nat) (x : α)
    (hx : l[i]? = some x) :
    (l.eraseIdx i).countP q + (if q x then 1 else 0) = l.countP q := by
  induction l generalizing i with
  | nil => simp at hx
  | cons y ys ih =>
    cases i with
    | zero =>
      simp only [List.getElem?_cons_zero, Option.some.injEq] at hx
      subst hx
      simp only [List.eraseIdx_cons_zero, List.countP_cons]
    | succ k =>
      simp only [List.getElem?_cons_succ] at hx
      have := ih k hx
      simp only [List.eraseIdx_cons_succ, List.countP_cons]
      omega

theorem countP_pos_of_getElem {α : Type} (q : α → Bool) (l : List α) (i : Nat) (x : α)
    (hx : l[i]? = some x) (hq : q x = true) : 0 < l.countP q := by
  have := countP_eraseIdx_add q l i x hx
  simp only [hq, if_true] at this
  omega

/-! ## The bookkeeping invariant of one ownership group -/

theorem inv_copyShared {c k : Nat} {s s1 : State} {i : Nat}
    (hinv : GroupInv c k s) (hstep : step s (Op.copyShared i) = Except.ok s1) :
    GroupInv c k s1 := by
  unfold step at hstep
  cases hi : s.shared[i]? with
  | none => simp [hi] at hstep
  | some h =>
    simp only [hi] at hstep
    cases hcp : shared_ptr.copy h s.mem with
    | error f => simp [hcp] at hstep
    | ok r =>
      obtain ⟨h1, m1⟩ := r
      simp only [hcp, Except.ok.injEq] at hstep
      obtain ⟨b, hne, hb, rfl, rfl⟩ := shared_copy_inv hcp
      subst hstep
      by_cases hcc : h1.counter = c
      · subst hcc
        obtain ⟨hA, _⟩ := hinv
        obtain ⟨h1a, h2a, h3a, h4a⟩ := hA b hb
        constructor
        · intro b1 hb1
          simp only [Memory.store, Function.update_same, Option.some.injEq] at hb1
          subst hb1
          simp only [State.sharedOn, State.weakOn, List.countP_append, List.countP_cons,
            List.countP_nil, decide_True, if_true, ControlBlock.SharedCountInc] at *
          simp only [SIZE_RANGE_eq] at *
          refine ⟨by omega, h2a, by omega, h4a⟩
        · intro hb1
          simp [Memory.store] at hb1
      · have hblk : (s.mem.store h1.counter b.SharedCountInc).blocks c = s.mem.blocks c := by
          simp [Memory.store, Function.update_noteq (Ne.symm hcc)]
        have hcnt : (h1 :: ([] : List shared_ptr)).countP (fun h => decide (h.counter = c)) = 0 := by
          simp [hcc]
        unfold GroupInv at *
        simp only [State.sharedOn, State.weakOn, List.countP_append, hblk, hcnt,
          Nat.add_zero] at *
        exact hinv

theorem destroyCalls_append (c : Nat) (l1 l2 : List Event) :
    destroyCalls c (l1 ++ l2) = destroyCalls c l1 + destroyCalls c l2 := by
  simp [destroyCalls]

theorem destroyCalls_deleter (c c1 p : Nat) (d : DeleterType) :
    destroyCalls c [Event.callDeleter c1 p, d.event p] = 0 := by
  cases d <;> simp [destroyCalls, DeleterType.event, List.count_cons]

theorem destroyCalls_destroy (c c1 : Nat) (f : Footprint) :
    destroyCalls c [Event.callDestroy c1, Event.deallocate c1 f] = if c1 = c then 1 else 0 := by
  by_cases h : c1 = c <;> simp [destroyCalls, List.count_cons, h]

theorem destroyCalls_weak_dtor (c c1 : Nat) (f : Footprint) (l : List Event)
    (B : Prop) [Decidable B] :
    destroyCalls c (l ++ (if B then [Event.callDestroy c1, Event.deallocate c1 f] else []))
      = destroyCalls c l + (if B ∧ c1 = c then 1 else 0) := by
  rw [destroyCalls_append]
  by_cases hB : B
  · rw [if_pos hB, destroyCalls_destroy]
    by_cases h : c1 = c <;> simp [hB, h]
  · rw [if_neg hB]
    simp [hB, destroyCalls]

theorem destroyCalls_shared_dtor (c c1 p : Nat) (d : DeleterType) (f : Footprint) (l : List Event)
    (A B : Prop) [Decidable A] [Decidable B] :
    destroyCalls c (l ++ (if A then [Event.callDeleter c1 p, d.event p] else [])
        ++ (if B then [Event.callDestroy c1, Event.deallocate c1 f] else []))
      = destroyCalls c l + (if B ∧ c1 = c then 1 else 0) := by
  have e1 : destroyCalls c (if A then [Event.callDeleter c1 p, d.event p] else []) = 0 := by
    by_cases hA : A
    · rw [if_pos hA]; exact destroyCalls_deleter c c1 p d
    · rw [if_neg hA]; rfl
  have e2 := destroyCalls_weak_dtor c c1 f [] B
  rw [destroyCalls_append, destroyCalls_append, e1]
  simp only [List.nil_append] at e2
  rw [e2]
  simp [destroyCalls]

theorem inv_moveShared {c k : Nat} {s s1 : State} {i : Nat} (hc : c ≠ 0)
    (hinv : GroupInv c k s) (hstep : step s (Op.moveShared i) = Except.ok s1) :
    GroupInv c k s1 := by
  unfold step at hstep
  cases hi : s.shared[i]? with
  | none => simp [hi] at hstep
  | some h =>
    simp only [hi, Except.ok.injEq] at hstep
    subst hstep
    have hset := countP_set_add (fun h => decide (h.counter = c)) s.shared i
      (shared_ptr.move h).2 h hi
    have h2 : decide ((shared_ptr.move h).2.counter = c) = false := by
      simp [shared_ptr.move, Ne.symm hc]
    have h1 : (shared_ptr.move h).1.counter = h.counter := rfl
    have hcnt : (s.shared.set i (shared_ptr.move h).2 ++ [(shared_ptr.move h).1]).countP
        (fun h => decide (h.counter = c)) = s.shared.countP (fun h => decide (h.counter = c)) := by
      simp only [List.countP_append, List.countP_cons, List.countP_nil, h1]
      simp only [h2] at hset
      by_cases hh : h.counter = c <;> simp [hh] at hset ⊢ <;> omega
    unfold GroupInv at *
    simp only [State.sharedOn, State.weakOn, hcnt] at *
    exact hinv

theorem inv_destroyShared {c k : Nat} {s s1 : State} {i : Nat}
    (hinv : GroupInv c k s) (hstep : step s (Op.destroyShared i) = Except.ok s1) :
    GroupInv c k s1 := by
  unfold step at hstep
  cases hi : s.shared[i]? with
  | none => simp [hi] at hstep
  | some h =>
    simp only [hi] at hstep
    cases hd : shared_ptr.dtor h s.mem with
    | error f => simp [hd] at hstep
    | ok m1 =>
      simp only [hd, Except.ok.injEq] at hstep
      subst hstep
      obtain ⟨b, hne, hb⟩ := shared_dtor_inv hd
      obtain ⟨m2, hm2, hblocks, hlog, -, -⟩ := shared_dtor_spec h.ptr hne hb
      have heq : m2 = m1 := by
        have : shared_ptr.dtor h s.mem = Except.ok m2 := hm2
        rw [hd] at this
        exact (Except.ok.inj this).symm
      subst heq
      have hcount := countP_eraseIdx_add (fun h => decide (h.counter = c)) s.shared i h hi
      have hdc := destroyCalls_shared_dtor c h.counter h.ptr b.deleter
        (if b.deleter = DeleterType.DefaultDeleter then Footprint.ControlData
          else Footprint.ControlBlock) s.mem.log (b.SharedCountDec.shared_count = 0)
        (b.SharedCountDec.shared_count = 0 ∧ b.weak_count = 0)
      rw [← hlog] at hdc
      by_cases hcc : h.counter = c
      · subst hcc
        obtain ⟨hA, _⟩ := hinv
        obtain ⟨h1a, h2a, h3a, h4a⟩ := hA b hb
        simp only [decide_True, if_true] at hcount
        have hsc : b.SharedCountDec.shared_count = (s.shared.eraseIdx i).countP
            (fun x => decide (x.counter = h.counter)) % SIZE_RANGE := by
          simp only [ControlBlock.SharedCountDec, State.sharedOn, SIZE_RANGE_eq] at *
          omega
        have hwc : b.SharedCountDec.weak_count = b.weak_count := by cases b; rfl
        by_cases hz : b.SharedCountDec.shared_count = 0 ∧ b.weak_count = 0
        · constructor
          · intro b1 hb1
            simp [hblocks, hz] at hb1
          · intro _
            simp only [State.sharedOn, State.weakOn] at *
            refine ⟨?_, ?_, ?_⟩
            · rw [← hsc]; exact hz.1
            · rw [← h2a]; exact hz.2
            · rw [hdc, h4a]; simp [hz]
        · constructor
          · intro b1 hb1
            simp only [hblocks, hz, if_false, Function.update_same, Option.some.injEq] at hb1
            subst hb1
            simp only [State.sharedOn, State.weakOn] at *
            refine ⟨hsc, by rw [hwc]; exact h2a, ?_, ?_⟩
            · by_contra hcon
              push_neg at hcon
              apply hz
              rw [hsc, h2a, hcon.1, hcon.2]
              simp
            · rw [hdc, h4a]; simp [hz]
          · intro hb1
            simp [hblocks, hz] at hb1
      · have hblk : m2.blocks c = s.mem.blocks c := by
          rw [hblocks, Function.update_noteq (Ne.symm hcc)]
        have hcnt : (s.shared.eraseIdx i).countP (fun h => decide (h.counter = c))
            = s.shared.countP (fun h => decide (h.counter = c)) := by
          simpa [hcc] using hcount
        have hdc2 : destroyCalls c m2.log = destroyCalls c s.mem.log := by
          rw [hdc]; simp [hcc]
        unfold GroupInv at *
        simp only [State.sharedOn, State.weakOn, hcnt, hblk, hdc2] at *
        exact hinv

theorem inv_weakInc {c k : Nat} {s : State} {c1 : Nat} {b : ControlBlock} {w1 : weak_ptr}
    (hw1 : w1.counter = c1) (hb : s.mem.blocks c1 = some b) (hinv : GroupInv c k s) :
    GroupInv c k { s with mem := s.mem.store c1 b.WeakCountInc, weak := s.weak ++ [w1] } := by
  by_cases hcc : c1 = c
  · subst hcc
    obtain ⟨hA, _⟩ := hinv
    obtain ⟨h1a, h2a, h3a, h4a⟩ := hA b hb
    constructor
    · intro b1 hb1
      simp only [Memory.store, Function.update_same, Option.some.injEq] at hb1
      subst hb1
      simp only [State.sharedOn, State.weakOn, List.countP_append, List.countP_cons,
        List.countP_nil, hw1, decide_True, if_true, ControlBlock.WeakCountInc] at *
      simp only [SIZE_RANGE_eq] at *
      refine ⟨h1a, by omega, by omega, h4a⟩
    · intro hb1
      simp [Memory.store] at hb1
  · have hblk : (s.mem.store c1 b.WeakCountInc).blocks c = s.mem.blocks c := by
      simp [Memory.store, Function.update_noteq (Ne.symm hcc)]
    have hcnt : (w1 :: ([] : List weak_ptr)).countP (fun w => decide (w.counter = c)) = 0 := by
      simp [hw1, hcc]
    unfold GroupInv at *
    simp only [State.sharedOn, State.weakOn, List.countP_append, hblk, hcnt,
      Nat.add_zero] at *
    exact hinv

theorem inv_weakFromShared {c k : Nat} {s s1 : State} {i : Nat}
    (hinv : GroupInv c k s) (hstep : step s (Op.weakFromShared i) = Except.ok s1) :
    GroupInv c k s1 := by
  unfold step at hstep
  cases hi : s.shared[i]? with
  | none => simp [hi] at hstep
  | some h =>
    simp only [hi] at hstep
    cases hcp : weak_ptr.fromShared h s.mem with
    | error f => simp [hcp] at hstep
    | ok r =>
      obtain ⟨w1, m1⟩ := r
      simp only [hcp, Except.ok.injEq] at hstep
      obtain ⟨b, hne, hb, rfl, rfl⟩ := weak_fromShared_inv hcp
      subst hstep
      exact inv_weakInc rfl hb hinv

theorem inv_copyWeak {c k : Nat} {s s1 : State} {j : Nat}
    (hinv : GroupInv c k s) (hstep : step s (Op.copyWeak j) = Except.ok s1) :
    GroupInv c k s1 := by
  unfold step at hstep
  cases hj : s.weak[j]? with
  | none => simp [hj] at hstep
  | some w =>
    simp only [hj] at hstep
    cases hcp : weak_ptr.copy w s.mem with
    | error f => simp [hcp] at hstep
    | ok r =>
      obtain ⟨w1, m1⟩ := r
      simp only [hcp, Except.ok.injEq] at hstep
      obtain ⟨b, hne, hb, rfl, rfl⟩ := weak_copy_inv hcp
      subst hstep
      exact inv_weakInc rfl hb hinv

theorem inv_weakMoved {c k : Nat} {s : State} {j : Nat} {w dst src : weak_ptr} (hc : c ≠ 0)
    (hj : s.weak[j]? = some w) (hdst : dst.counter = w.counter) (hsrc : src.counter = 0)
    (hinv : GroupInv c k s) :
    GroupInv c k { s with weak := s.weak.set j src ++ [dst] } := by
  have hset := countP_set_add (fun w => decide (w.counter = c)) s.weak j src w hj
  have h2 : decide (src.counter = c) = false := by
    simp [hsrc, Ne.symm hc]
  have hcnt : (s.weak.set j src ++ [dst]).countP
      (fun w => decide (w.counter = c)) = s.weak.countP (fun w => decide (w.counter = c)) := by
    simp only [List.countP_append, List.countP_cons, List.countP_nil, hdst]
    simp only [h2] at hset
    by_cases hh : w.counter = c <;> simp [hh] at hset ⊢ <;> omega
  unfold GroupInv at *
  simp only [State.sharedOn, State.weakOn, hcnt] at *
  exact hinv

theorem inv_moveWeak {c k : Nat} {s s1 : State} {j : Nat} (hc : c ≠ 0)
    (hinv : GroupInv c k s) (hstep : step s (Op.moveWeak j) = Except.ok s1) :
    GroupInv c k s1 := by
  unfold step at hstep
  cases hj : s.weak[j]? with
  | none => simp [hj] at hstep
  | some w =>
    simp only [hj, Except.ok.injEq] at hstep
    subst hstep
    exact inv_weakMoved hc hj rfl rfl hinv

theorem inv_moveWeakConverting {c k : Nat} {s s1 : State} {j u : Nat} (hc : c ≠ 0)
    (hinv : GroupInv c k s) (hstep : step s (Op.moveWeakConverting j u) = Except.ok s1) :
    GroupInv c k s1 := by
  unfold step at hstep
  cases hj : s.weak[j]? with
  | none => simp [hj] at hstep
  | some w =>
    simp only [hj, Except.ok.injEq] at hstep
    subst hstep
    exact inv_weakMoved hc hj rfl rfl hinv

theorem inv_destroyWeak {c k : Nat} {s s1 : State} {j : Nat}
    (hinv : GroupInv c k s) (hstep : step s (Op.destroyWeak j) = Except.ok s1) :
    GroupInv c k s1 := by
  unfold step at hstep
  cases hj : s.weak[j]? with
  | none => simp [hj] at hstep
  | some w =>
    simp only [hj] at hstep
    cases hd : weak_ptr.dtor w s.mem with
    | error f => simp [hd] at hstep
    | ok m1 =>
      simp only [hd, Except.ok.injEq] at hstep
      subst hstep
      obtain ⟨b, hne, hb⟩ := weak_dtor_inv hd
      obtain ⟨m2, hm2, hblocks, hlog, -, -⟩ := weak_dtor_spec w.ptr hne hb
      have heq : m2 = m1 := by
        have : weak_ptr.dtor w s.mem = Except.ok m2 := hm2
        rw [hd] at this
        exact (Except.ok.inj this).symm
      subst heq
      have hcount := countP_eraseIdx_add (fun w => decide (w.counter = c)) s.weak j w hj
      have hdc := destroyCalls_weak_dtor c w.counter
        (if b.deleter = DeleterType.DefaultDeleter then Footprint.ControlData
          else Footprint.ControlBlock) s.mem.log
        (b.shared_count = 0 ∧ b.WeakCountDec.weak_count = 0)
      rw [← hlog] at hdc
      by_cases hcc : w.counter = c
      · subst hcc
        obtain ⟨hA, _⟩ := hinv
        obtain ⟨h1a, h2a, h3a, h4a⟩ := hA b hb
        simp only [decide_True, if_true] at hcount
        have hwc : b.WeakCountDec.weak_count = (s.weak.eraseIdx j).countP
            (fun x => decide (x.counter = w.counter)) % SIZE_RANGE := by
          simp only [ControlBlock.WeakCountDec, State.weakOn, SIZE_RANGE_eq] at *
          omega
        have hsc : b.WeakCountDec.shared_count = b.shared_count := by cases b; rfl
        by_cases hz : b.shared_count = 0 ∧ b.WeakCountDec.weak_count = 0
        · constructor
          · intro b1 hb1
            simp [hblocks, hz] at hb1
          · intro _
            simp only [State.sharedOn, State.weakOn] at *
            refine ⟨?_, ?_, ?_⟩
            · rw [← h1a]; exact hz.1
            · rw [← hwc]; exact hz.2
            · rw [hdc, h4a]; simp [hz]
        · constructor
          · intro b1 hb1
            simp only [hblocks, hz, if_false, Function.update_same, Option.some.injEq] at hb1
            subst hb1
            simp only [State.sharedOn, State.weakOn] at *
            refine ⟨by rw [hsc]; exact h1a, hwc, ?_, ?_⟩
            · by_contra hcon
              push_neg at hcon
              apply hz
              rw [hwc, h1a, hcon.1, hcon.2]
              simp
            · rw [hdc, h4a]; simp [hz]
          · intro hb1
            simp [hblocks, hz] at hb1
      · have hblk : m2.blocks c = s.mem.blocks c := by
          rw [hblocks, Function.update_noteq (Ne.symm hcc)]
        have hcnt : (s.weak.eraseIdx j).countP (fun w => decide (w.counter = c))
            = s.weak.countP (fun w => decide (w.counter = c)) := by
          simpa [hcc] using hcount
        have hdc2 : destroyCalls c m2.log = destroyCalls c s.mem.log := by
          rw [hdc]; simp [hcc]
        unfold GroupInv at *
        simp only [State.sharedOn, State.weakOn, hcnt, hblk, hdc2] at *
        exact hinv

theorem inv_step {c k : Nat} {s s1 : State} (op : Op) (hc : c ≠ 0)
    (hinv : GroupInv c k s) (hstep : step s op = Except.ok s1) : GroupInv c k s1 := by
  cases op with
  | copyShared i => exact inv_copyShared hinv hstep
  | moveShared i => exact inv_moveShared hc hinv hstep
  | destroyShared i => exact inv_destroyShared hinv hstep
  | weakFromShared i => exact inv_weakFromShared hinv hstep
  | copyWeak j => exact inv_copyWeak hinv hstep
  | moveWeak j => exact inv_moveWeak hc hinv hstep
  | moveWeakConverting j u => exact inv_moveWeakConverting hc hinv hstep
  | destroyWeak j => exact inv_destroyWeak hinv hstep

theorem inv_run {c k : Nat} (ops : List Op) (hc : c ≠ 0) :
    ∀ {s s1 : State}, GroupInv c k s → run s ops = Except.ok s1 → GroupInv c k s1 := by
  induction ops with
  | nil =>
    intro s s1 hinv hrun
    simp only [run, Except.ok.injEq] at hrun
    subst hrun
    exact hinv
  | cons op ops ih =>
    intro s s1 hinv hrun
    simp only [run] at hrun
    cases hs : step s op with
    | error f => simp [hs] at hrun
    | ok s2 =>
      simp only [hs] at hrun
      exact ih (inv_step op hc hinv hs) hrun

theorem inv_adopted (ptr : Nat) (d : DeleterType) (alloc c : Nat) (m : Memory) :
    GroupInv c (destroyCalls c (adopted ptr d alloc c m).mem.log) (adopted ptr d alloc c m) := by
  constructor
  · intro b hb
    simp only [adopted, shared_ptr.adopt, Memory.store, Function.update_same,
      Option.some.injEq] at hb
    subst hb
    simp [adopted, shared_ptr.adopt, State.sharedOn, State.weakOn, ControlBlock.construct,
      SIZE_RANGE_eq, Memory.store, Memory.allocate, destroyCalls]
  · intro hb
    simp [adopted, shared_ptr.adopt, Memory.store] at hb

theorem inv_inPlaced (alloc : Nat) (v : Int) (r off : Nat) (m : Memory) :
    GroupInv r (destroyCalls r (inPlaced alloc (some v) r off m).mem.log)
      (inPlaced alloc (some v) r off m) := by
  constructor
  · intro b hb
    simp only [inPlaced, smart_ptr.allocate_shared, shared_ptr.inPlace, Memory.store,
      Function.update_same, Option.some.injEq] at hb
    subst hb
    simp [inPlaced, smart_ptr.allocate_shared, shared_ptr.inPlace, State.sharedOn,
      State.weakOn, ControlBlock.construct, SIZE_RANGE_eq, Memory.store, Memory.allocate,
      Memory.emit, destroyCalls]
  · intro hb
    simp [inPlaced, smart_ptr.allocate_shared, shared_ptr.inPlace, Memory.store] at hb

/-- Every state a client program reaches from a freshly created group satisfies the
bookkeeping invariant of that group. -/
theorem inv_reachable {c : Nat} {s0 s : State} (ops : List Op) (hc : c ≠ 0)
    (hinit : (∃ ptr d alloc m, s0 = adopted ptr d alloc c m) ∨
             (∃ alloc v off m, s0 = inPlaced alloc (some v) c off m))
    (hrun : run s0 ops = Except.ok s) :
    GroupInv c (destroyCalls c s0.mem.log) s := by
  rcases hinit with ⟨ptr, d, alloc, m, rfl⟩ | ⟨alloc, v, off, m, rfl⟩
  · exact inv_run ops hc (inv_adopted ptr d alloc c m) hrun
  · exact inv_run ops hc (inv_inPlaced alloc v c off m) hrun

theorem sharedOn_pos {s : State} {c i : Nat} {h : shared_ptr}
    (hi : s.shared[i]? = some h) (hh : h.counter = c) : 0 < s.sharedOn c :=
  countP_pos_of_getElem _ s.shared i h hi (by simp [hh])

theorem weakOn_pos {s : State} {c j : Nat} {w : weak_ptr}
    (hj : s.weak[j]? = some w) (hw : w.counter = c) : 0 < s.weakOn c :=
  countP_pos_of_getElem _ s.weak j w hj (by simp [hw])

/-- Under the invariant, a group that still has a handle and whose handle counts fit
`size_t` has its control block constructed, with the counts in its counters. -/
theorem inv_live {c k : Nat} {s : State} (hinv : GroupInv c k s)
    (hpos : 0 < s.sharedOn c ∨ 0 < s.weakOn c)
    (hS : s.sharedOn c < SIZE_RANGE) (hW : s.weakOn c < SIZE_RANGE) :
    ∃ b, s.mem.blocks c = some b ∧ b.shared_count = s.sharedOn c ∧
      b.weak_count = s.weakOn c := by
  cases hb : s.mem.blocks c with
  | none =>
    obtain ⟨h1, h2, _⟩ := hinv.2 hb
    rw [Nat.mod_eq_of_lt hS] at h1
    rw [Nat.mod_eq_of_lt hW] at h2
    omega
  | some b =>
    obtain ⟨h1, h2, _, _⟩ := hinv.1 b hb
    rw [Nat.mod_eq_of_lt hS] at h1
    rw [Nat.mod_eq_of_lt hW] at h2
    exact ⟨b, rfl, h1, h2⟩

theorem inv_live_shared {c k : Nat} {s : State} (hinv : GroupInv c k s)
    (hpos : 0 < s.sharedOn c) (hS : s.sharedOn c < SIZE_RANGE) :
    ∃ b, s.mem.blocks c = some b ∧ b.shared_count = s.sharedOn c ∧
      b.weak_count = s.weakOn c % SIZE_RANGE := by
  cases hb : s.mem.blocks c with
  | none =>
    obtain ⟨h1, _, _⟩ := hinv.2 hb
    rw [Nat.mod_eq_of_lt hS] at h1
    omega
  | some b =>
    obtain ⟨h1, h2, _, _⟩ := hinv.1 b hb
    rw [Nat.mod_eq_of_lt hS] at h1
    exact ⟨b, rfl, h1, h2⟩

theorem inv_live_weak {c k : Nat} {s : State} (hinv : GroupInv c k s)
    (hpos : 0 < s.weakOn c) (hW : s.weakOn c < SIZE_RANGE) :
    ∃ b, s.mem.blocks c = some b ∧ b.shared_count = s.sharedOn c % SIZE_RANGE ∧
      b.weak_count = s.weakOn c := by
  cases hb : s.mem.blocks c with
  | none =>
    obtain ⟨_, h2, _⟩ := hinv.2 hb
    rw [Nat.mod_eq_of_lt hW] at h2
    omega
  | some b =>
    obtain ⟨h1, h2, _, _⟩ := hinv.1 b hb
    rw [Nat.mod_eq_of_lt hW] at h2
    exact ⟨b, rfl, h1, h2⟩

theorem handles_step {c : Nat} {s s1 : State} (op : Op)
    (hinv : HandlesInv c s) (hstep : step s op = Except.ok s1) : HandlesInv c s1 := by
  obtain ⟨hS, hW⟩ := hinv
  cases op with
  | copyShared i =>
    unfold step at hstep
    cases hi : s.shared[i]? with
    | none => simp [hi] at hstep
    | some h =>
      simp only [hi] at hstep
      cases hcp : shared_ptr.copy h s.mem with
      | error f => simp [hcp] at hstep
      | ok r =>
        obtain ⟨h1, m1⟩ := r
        simp only [hcp, Except.ok.injEq] at hstep
        obtain ⟨b, _, _, rfl, rfl⟩ := shared_copy_inv hcp
        subst hstep
        refine ⟨?_, hW⟩
        intro x hx
        rcases List.mem_append.1 hx with hx | hx
        · exact hS x hx
        · simp only [List.mem_singleton] at hx
          subst hx
          exact hS _ (List.getElem?_mem hi)
  | moveShared i =>
    unfold step at hstep
    cases hi : s.shared[i]? with
    | none => simp [hi] at hstep
    | some h =>
      simp only [hi, Except.ok.injEq] at hstep
      subst hstep
      refine ⟨?_, hW⟩
      intro x hx
      rcases List.mem_append.1 hx with hx | hx
      · rcases List.mem_or_eq_of_mem_set hx with hx | hx
        · exact hS x hx
        · left; rw [hx]; rfl
      · simp only [List.mem_singleton] at hx
        rw [hx]
        have h0 := hS h (List.getElem?_mem hi)
        exact h0
  | destroyShared i =>
    unfold step at hstep
    cases hi : s.shared[i]? with
    | none => simp [hi] at hstep
    | some h =>
      simp only [hi] at hstep
      cases hd : shared_ptr.dtor h s.mem with
      | error f => simp [hd] at hstep
      | ok m1 =>
        simp only [hd, Except.ok.injEq] at hstep
        subst hstep
        exact ⟨fun x hx => hS x (List.mem_of_mem_eraseIdx hx), hW⟩
  | weakFromShared i =>
    unfold step at hstep
    cases hi : s.shared[i]? with
    | none => simp [hi] at hstep
    | some h =>
      simp only [hi] at hstep
      cases hcp : weak_ptr.fromShared h s.mem with
      | error f => simp [hcp] at hstep
      | ok r =>
        obtain ⟨w1, m1⟩ := r
        simp only [hcp, Except.ok.injEq] at hstep
        obtain ⟨b, _, _, rfl, rfl⟩ := weak_fromShared_inv hcp
        subst hstep
        refine ⟨hS, ?_⟩
        intro x hx
        rcases List.mem_append.1 hx with hx | hx
        · exact hW x hx
        · simp only [List.mem_singleton] at hx
          subst hx
          exact hS _ (List.getElem?_mem hi)
  | copyWeak j =>
    unfold step at hstep
    cases hj : s.weak[j]? with
    | none => simp [hj] at hstep
    | some w =>
      simp only [hj] at hstep
      cases hcp : weak_ptr.copy w s.mem with
      | error f => simp [hcp] at hstep
      | ok r =>
        obtain ⟨w1, m1⟩ := r
        simp only [hcp, Except.ok.injEq] at hstep
        obtain ⟨b, _, _, rfl, rfl⟩ := weak_copy_inv hcp
        subst hstep
        refine ⟨hS, ?_⟩
        intro x hx
        rcases List.mem_append.1 hx with hx | hx
        · exact hW x hx
        · simp only [List.mem_singleton] at hx
          subst hx
          exact hW _ (List.getElem?_mem hj)
  | moveWeak j =>
    unfold step at hstep
    cases hj : s.weak[j]? with
    | none => simp [hj] at hstep
    | some w =>
      simp only [hj, Except.ok.injEq] at hstep
      subst hstep
      refine ⟨hS, ?_⟩
      intro x hx
      rcases List.mem_append.1 hx with hx | hx
      · rcases List.mem_or_eq_of_mem_set hx with hx | hx
        · exact hW x hx
        · left; rw [hx]; rfl
      · simp only [List.mem_singleton] at hx
        rw [hx]
        exact hW _ (List.getElem?_mem hj)
  | moveWeakConverting j u =>
    unfold step at hstep
    cases hj : s.weak[j]? with
    | none => simp [hj] at hstep
    | some w =>
      simp only [hj, Except.ok.injEq] at hstep
      subst hstep
      refine ⟨hS, ?_⟩
      intro x hx
      rcases List.mem_append.1 hx with hx | hx
      · rcases List.mem_or_eq_of_mem_set hx with hx | hx
        · exact hW x hx
        · left; rw [hx]; rfl
      · simp only [List.mem_singleton] at hx
        rw [hx]
        have h0 := hW w (List.getElem?_mem hj)
        exact h0
  | destroyWeak j =>
    unfold step at hstep
    cases hj : s.weak[j]? with
    | none => simp [hj] at hstep
    | some w =>
      simp only [hj] at hstep
      cases hd : weak_ptr.dtor w s.mem with
      | error f => simp [hd] at hstep
      | ok m1 =>
        simp only [hd, Except.ok.injEq] at hstep
        subst hstep
        exact ⟨hS, fun x hx => hW x (List.mem_of_mem_eraseIdx hx)⟩

theorem handles_run {c : Nat} (ops : List Op) :
    ∀ {s s1 : State}, HandlesInv c s → run s ops = Except.ok s1 → HandlesInv c s1 := by
  induction ops with
  | nil =>
    intro s s1 hinv hrun
    simp only [run, Except.ok.injEq] at hrun
    subst hrun
    exact hinv
  | cons op ops ih =>
    intro s s1 hinv hrun
    simp only [run] at hrun
    cases hs : step s op with
    | error f => simp [hs] at hrun
    | ok s2 =>
      simp only [hs] at hrun
      exact ih (handles_step op hinv hs) hrun

theorem handles_reachable {c : Nat} {s0 s : State} (ops : List Op)
    (hinit : (∃ ptr d alloc m, s0 = adopted ptr d alloc c m) ∨
             (∃ alloc v off m, s0 = inPlaced alloc (some v) c off m))
    (hrun : run s0 ops = Except.ok s) : HandlesInv c s := by
  refine handles_run ops ?_ hrun
  rcases hinit with ⟨ptr, d, alloc, m, rfl⟩ | ⟨alloc, v, off, m, rfl⟩
  · constructor
    · intro h hh
      simp only [adopted, shared_ptr.adopt, List.mem_singleton] at hh
      right; rw [hh]
    · intro w hw
      simp [adopted] at hw
  · constructor
    · intro h hh
      simp only [inPlaced, smart_ptr.allocate_shared, shared_ptr.inPlace,
        List.mem_singleton] at hh
      right; rw [hh]
    · intro w hw
      simp [inPlaced, smart_ptr.allocate_shared, shared_ptr.inPlace] at hw

theorem shared_copy_null (p : Nat) (m : Memory) :
    shared_ptr.copy { counter := 0, ptr := p } m = Except.error Fault.nullDeref := by
  simp [shared_ptr.copy, CB_BASE.SharedCountInc, load_null, bind, Except.bind]

theorem weak_fromShared_null (p : Nat) (m : Memory) :
    weak_ptr.fromShared { counter := 0, ptr := p } m = Except.error Fault.nullDeref := by
  simp [weak_ptr.fromShared, CB_BASE.WeakCountInc, load_null, bind, Except.bind]

theorem weak_copy_null (p : Nat) (m : Memory) :
    weak_ptr.copy { counter := 0, ptr := p } m = Except.error Fault.nullDeref := by
  simp [weak_ptr.copy, CB_BASE.WeakCountInc, load_null, bind, Except.bind]

/-- In a state where every handle is null or on a live block, no statement reads a
control block that is not there. -/
theorem step_no_dangling {s : State} (op : Op)
    (hS : ∀ h ∈ s.shared, h.counter = 0 ∨ ∃ b, s.mem.blocks h.counter = some b)
    (hW : ∀ w ∈ s.weak, w.counter = 0 ∨ ∃ b, s.mem.blocks w.counter = some b) :
    step s op ≠ Except.error Fault.danglingDeref := by
  cases op with
  | copyShared i =>
    unfold step
    cases hi : s.shared[i]? with
    | none => simp [hi]
    | some h =>
      obtain ⟨c, p⟩ := h
      rcases hS _ (List.getElem?_mem hi) with h0 | ⟨b, hb⟩
      · simp only at h0; subst h0; simp [hi, shared_copy_null]
      · by_cases hc : c = 0
        · subst hc; simp [hi, shared_copy_null]
        · simp [hi, shared_copy_ok p hc hb]
  | moveShared i =>
    unfold step
    cases hi : s.shared[i]? <;> simp [hi]
  | destroyShared i =>
    unfold step
    cases hi : s.shared[i]? with
    | none => simp [hi]
    | some h =>
      obtain ⟨c, p⟩ := h
      rcases hS _ (List.getElem?_mem hi) with h0 | ⟨b, hb⟩
      · simp only at h0; subst h0; simp [hi, shared_dtor_null]
      · by_cases hc : c = 0
        · subst hc; simp [hi, shared_dtor_null]
        · obtain ⟨m1, hm1, _⟩ := shared_dtor_spec p hc hb
          simp [hi, hm1]
  | weakFromShared i =>
    unfold step
    cases hi : s.shared[i]? with
    | none => simp [hi]
    | some h =>
      obtain ⟨c, p⟩ := h
      rcases hS _ (List.getElem?_mem hi) with h0 | ⟨b, hb⟩
      · simp only at h0; subst h0; simp [hi, weak_fromShared_null]
      · by_cases hc : c = 0
        · subst hc; simp [hi, weak_fromShared_null]
        · simp [hi, weak_fromShared_ok p hc hb]
  | copyWeak j =>
    unfold step
    cases hj : s.weak[j]? with
    | none => simp [hj]
    | some w =>
      obtain ⟨c, p⟩ := w
      rcases hW _ (List.getElem?_mem hj) with h0 | ⟨b, hb⟩
      · simp only at h0; subst h0; simp [hj, weak_copy_null]
      · by_cases hc : c = 0
        · subst hc; simp [hj, weak_copy_null]
        · simp [hj, weak_copy_ok p hc hb]
  | moveWeak j =>
    unfold step
    cases hj : s.weak[j]? <;> simp [hj]
  | moveWeakConverting j u =>
    unfold step
    cases hj : s.weak[j]? <;> simp [hj]
  | destroyWeak j =>
    unfold step
    cases hj : s.weak[j]? with
    | none => simp [hj]
    | some w =>
      obtain ⟨c, p⟩ := w
      rcases hW _ (List.getElem?_mem hj) with h0 | ⟨b, hb⟩
      · simp only at h0; subst h0; simp [hj, weak_dtor_null]
      · by_cases hc : c = 0
        · subst hc; simp [hj, weak_dtor_null]
        · obtain ⟨m1, hm1, _⟩ := weak_dtor_spec p hc hb
          simp [hj, hm1]

/-- The life of a group that starts with one owner on a `DefaultDeleter` block at `r`
and a live payload at `p`: copy, destroy the original, destroy the copy. -/
theorem in_place_copy_destroy_destroy (m1 : Memory) (r p a : Nat) (v : Int)
    (hr : r ≠ 0) (hp : p ≠ 0)
    (hb : m1.blocks r = some (ControlBlock.construct a DeleterType.DefaultDeleter))
    (hobj : m1.objects p = some v) :
    ∃ B m2, shared_ptr.copy { counter := r, ptr := p } m1 = Except.ok (B, m2) ∧
      B = { counter := r, ptr := p } ∧
      shared_ptr.use_count { counter := r, ptr := p } m2 = Except.ok 2 ∧
      B.use_count m2 = Except.ok 2 ∧ m2.log = m1.log ∧
      ∃ m3, shared_ptr.dtor { counter := r, ptr := p } m2 = Except.ok m3 ∧
        B.use_count m3 = Except.ok 1 ∧
        B.deref m3 = Except.ok v ∧ m3.log = m2.log ∧
        ∃ m4, B.dtor m3 = Except.ok m4 ∧
          m4.log = m3.log ++ [Event.callDeleter r p, Event.allocDestroy p,
            Event.callDestroy r, Event.deallocate r Footprint.ControlData] ∧
          m4.objects p = none ∧ m4.blocks r = none ∧ m4.allocs r = none := by
  have hinc : (ControlBlock.construct a DeleterType.DefaultDeleter).SharedCountInc
      = (ControlBlock.mk 2 0 a DeleterType.DefaultDeleter) := by
    simp [ControlBlock.construct, ControlBlock.SharedCountInc, SIZE_RANGE_eq]
  have hdec2 : ControlBlock.SharedCountDec
      (ControlBlock.mk 2 0 a DeleterType.DefaultDeleter)
      = (ControlBlock.mk 1 0 a DeleterType.DefaultDeleter) := by
    simp [ControlBlock.SharedCountDec, SIZE_RANGE_eq]
  have hdec1 : ControlBlock.SharedCountDec
      (ControlBlock.mk 1 0 a DeleterType.DefaultDeleter)
      = (ControlBlock.mk 0 0 a DeleterType.DefaultDeleter) := by
    simp [ControlBlock.SharedCountDec, SIZE_RANGE_eq]
  have hb2 : (m1.store r (ControlBlock.construct a DeleterType.DefaultDeleter).SharedCountInc).blocks r
      = some (ControlBlock.mk 2 0 a DeleterType.DefaultDeleter) := by
    rw [store_blocks_same, hinc]
  obtain ⟨m3, hm3, hblk3, hlog3, hobj3, _⟩ := shared_dtor_spec p hr hb2
  rw [hdec2] at hblk3 hlog3 hobj3
  simp only [one_ne_zero, false_and, if_false, List.append_nil] at hblk3 hlog3 hobj3
  have hb3 : m3.blocks r = some (ControlBlock.mk 1 0 a DeleterType.DefaultDeleter) := by
    rw [hblk3, Function.update_same]
  obtain ⟨m4, hm4, hblk4, hlog4, hobj4, hal4⟩ := shared_dtor_spec p hr hb3
  rw [hdec1] at hblk4 hlog4 hobj4 hal4
  simp only [and_self, if_true] at hblk4 hlog4 hobj4 hal4
  refine ⟨_, _, shared_copy_ok p hr hb, rfl, ?_, ?_, rfl, m3, hm3, ?_, ?_, hlog3, m4, hm4, ?_, ?_,
    ?_, ?_⟩
  · rw [shared_ptr.use_count, CB_GetSharedCount_ok hr hb2]
  · rw [shared_ptr.use_count, CB_GetSharedCount_ok hr hb2]
  · rw [shared_ptr.use_count, CB_GetSharedCount_ok hr hb3]
  · simp [shared_ptr.deref, hp, hobj3, Memory.store, hobj]
  · rw [hlog4]
    simp [DeleterType.event]
  · rw [hobj4]
    simp [DeleterType.run]
  · rw [hblk4, Function.update_same]
  · rw [hal4, Function.update_same]

/-! ## The log of one ownership group over a whole program -/

theorem step_length {s s1 : State} (op : Op) (hstep : step s op = Except.ok s1) :
    s1.shared.length ≤ s.shared.length + 1 ∧ s1.weak.length ≤ s.weak.length + 1 := by
  cases op with
  | copyShared i =>
    unfold step at hstep
    cases hi : s.shared[i]? with
    | none => simp [hi] at hstep
    | some h =>
      simp only [hi] at hstep
      cases hcp : shared_ptr.copy h s.mem with
      | error f => simp [hcp] at hstep
      | ok r =>
        simp only [hcp, Except.ok.injEq] at hstep
        subst hstep
        simp
  | moveShared i =>
    unfold step at hstep
    cases hi : s.shared[i]? with
    | none => simp [hi] at hstep
    | some h =>
      simp only [hi, Except.ok.injEq] at hstep
      subst hstep
      simp
  | destroyShared i =>
    unfold step at hstep
    cases hi : s.shared[i]? with
    | none => simp [hi] at hstep
    | some h =>
      simp only [hi] at hstep
      cases hd : shared_ptr.dtor h s.mem with
      | error f => simp [hd] at hstep
      | ok m1 =>
        simp only [hd, Except.ok.injEq] at hstep
        subst hstep
        have := (List.eraseIdx_sublist s.shared i).length_le
        simp only [le_refl, and_true]
        omega
  | weakFromShared i =>
    unfold step at hstep
    cases hi : s.shared[i]? with
    | none => simp [hi] at hstep
    | some h =>
      simp only [hi] at hstep
      cases hcp : weak_ptr.fromShared h s.mem with
      | error f => simp [hcp] at hstep
      | ok r =>
        simp only [hcp, Except.ok.injEq] at hstep
        subst hstep
        simp
  | copyWeak j =>
    unfold step at hstep
    cases hj : s.weak[j]? with
    | none => simp [hj] at hstep
    | some w =>
      simp only [hj] at hstep
      cases hcp : weak_ptr.copy w s.mem with
      | error f => simp [hcp] at hstep
      | ok r =>
        simp only [hcp, Except.ok.injEq] at hstep
        subst hstep
        simp
  | moveWeak j =>
    unfold step at hstep
    cases hj : s.weak[j]? with
    | none => simp [hj] at hstep
    | some w =>
      simp only [hj, Except.ok.injEq] at hstep
      subst hstep
      simp
  | moveWeakConverting j u =>
    unfold step at hstep
    cases hj : s.weak[j]? with
    | none => simp [hj] at hstep
    | some w =>
      simp only [hj, Except.ok.injEq] at hstep
      subst hstep
      simp
  | destroyWeak j =>
    unfold step at hstep
    cases hj : s.weak[j]? with
    | none => simp [hj] at hstep
    | some w =>
      simp only [hj] at hstep
      cases hd : weak_ptr.dtor w s.mem with
      | error f => simp [hd] at hstep
      | ok m1 =>
        simp only [hd, Except.ok.injEq] at hstep
        subst hstep
        have := (List.eraseIdx_sublist s.weak j).length_le
        simp only [le_refl, true_and]
        omega

theorem sharedOn_le_length (s : State) (c : Nat) : s.sharedOn c ≤ s.shared.length :=
  List.countP_le_length _

theorem weakOn_le_length (s : State) (c : Nat) : s.weakOn c ≤ s.weak.length :=
  List.countP_le_length _

theorem log_copyShared {c p : Nat} {d : DeleterType} {log0 : List Event} {s s1 : State}
    {i : Nat} (hH : HandlesInv c s) (hL : LogInv c p d log0 s)
    (hstep : step s (Op.copyShared i) = Except.ok s1) : LogInv c p d log0 s1 := by
  unfold step at hstep
  cases hi : s.shared[i]? with
  | none => simp [hi] at hstep
  | some h =>
    simp only [hi] at hstep
    cases hcp : shared_ptr.copy h s.mem with
    | error f => simp [hcp] at hstep
    | ok r =>
      obtain ⟨h1, m1⟩ := r
      simp only [hcp, Except.ok.injEq] at hstep
      obtain ⟨b, hne, hb, rfl, rfl⟩ := shared_copy_inv hcp
      subst hstep
      have hcc : h1.counter = c := (hH.1 h1 (List.getElem?_mem hi)).resolve_left hne
      have hpos : 0 < s.sharedOn c := sharedOn_pos hi hcc
      obtain ⟨hP, hD, hL1, _, _⟩ := hL
      have hS1 : State.sharedOn (State.mk (s.mem.store h1.counter b.SharedCountInc)
          (s.shared ++ [h1]) s.weak) c = s.sharedOn c + 1 := by
        simp [State.sharedOn, hcc]
      refine ⟨?_, ?_, ?_, ?_, ?_⟩
      · intro x hx hxc
        rcases List.mem_append.1 hx with hx | hx
        · exact hP x hx hxc
        · simp only [List.mem_singleton] at hx
          subst hx
          exact hP _ (List.getElem?_mem hi) hxc
      · intro b1 hb1
        rw [hcc] at hb hb1
        simp only [Memory.store, Function.update_same, Option.some.injEq] at hb1
        subst hb1
        have := hD b hb
        cases b
        exact this
      · intro _
        exact hL1 hpos
      · intro h0
        rw [hS1] at h0
        omega
      · intro h0
        rw [hS1] at h0
        omega

theorem log_weakInc {c p : Nat} {d : DeleterType} {log0 : List Event} {s : State}
    {b : ControlBlock} {w1 : weak_ptr} (hw1 : w1.counter = c) (hb : s.mem.blocks c = some b)
    (hpos : 0 < s.sharedOn c ∨ 0 < s.weakOn c) (hL : LogInv c p d log0 s) :
    LogInv c p d log0 { s with mem := s.mem.store c b.WeakCountInc, weak := s.weak ++ [w1] } := by
  obtain ⟨hP, hD, hL1, hL2, _⟩ := hL
  have hW1 : State.weakOn (State.mk (s.mem.store c b.WeakCountInc) s.shared
      (s.weak ++ [w1])) c = s.weakOn c + 1 := by
    simp [State.weakOn, hw1]
  refine ⟨hP, ?_, hL1, ?_, ?_⟩
  · intro b1 hb1
    simp only [Memory.store, Function.update_same, Option.some.injEq] at hb1
    subst hb1
    have := hD b hb
    cases b
    exact this
  · intro h0 _
    have h0s : s.sharedOn c = 0 := h0
    rcases hpos with hp | hp
    · omega
    · exact hL2 h0s hp
  · intro _ h0
    rw [hW1] at h0
    omega

theorem log_weakFromShared {c p : Nat} {d : DeleterType} {log0 : List Event} {s s1 : State}
    {i : Nat} (hH : HandlesInv c s) (hL : LogInv c p d log0 s)
    (hstep : step s (Op.weakFromShared i) = Except.ok s1) : LogInv c p d log0 s1 := by
  unfold step at hstep
  cases hi : s.shared[i]? with
  | none => simp [hi] at hstep
  | some h =>
    simp only [hi] at hstep
    cases hcp : weak_ptr.fromShared h s.mem with
    | error f => simp [hcp] at hstep
    | ok r =>
      obtain ⟨w1, m1⟩ := r
      simp only [hcp, Except.ok.injEq] at hstep
      obtain ⟨b, hne, hb, rfl, rfl⟩ := weak_fromShared_inv hcp
      subst hstep
      have hcc : h.counter = c := (hH.1 h (List.getElem?_mem hi)).resolve_left hne
      rw [hcc] at hb ⊢
      exact log_weakInc rfl hb (Or.inl (sharedOn_pos hi hcc)) hL

theorem log_copyWeak {c p : Nat} {d : DeleterType} {log0 : List Event} {s s1 : State}
    {j : Nat} (hH : HandlesInv c s) (hL : LogInv c p d log0 s)
    (hstep : step s (Op.copyWeak j) = Except.ok s1) : LogInv c p d log0 s1 := by
  unfold step at hstep
  cases hj : s.weak[j]? with
  | none => simp [hj] at hstep
  | some w =>
    simp only [hj] at hstep
    cases hcp : weak_ptr.copy w s.mem with
    | error f => simp [hcp] at hstep
    | ok r =>
      obtain ⟨w1, m1⟩ := r
      simp only [hcp, Except.ok.injEq] at hstep
      obtain ⟨b, hne, hb, rfl, rfl⟩ := weak_copy_inv hcp
      subst hstep
      have hcc : w1.counter = c := (hH.2 w1 (List.getElem?_mem hj)).resolve_left hne
      rw [hcc] at hb ⊢
      exact log_weakInc hcc hb (Or.inr (weakOn_pos hj hcc)) hL

theorem log_weakMoved {c p : Nat} {d : DeleterType} {log0 : List Event} {s : State}
    {j : Nat} {w dst src : weak_ptr} (hc : c ≠ 0)
    (hj : s.weak[j]? = some w) (hdst : dst.counter = w.counter) (hsrc : src.counter = 0)
    (hL : LogInv c p d log0 s) :
    LogInv c p d log0 { s with weak := s.weak.set j src ++ [dst] } := by
  have hset := countP_set_add (fun w => decide (w.counter = c)) s.weak j src w hj
  have h2 : decide (src.counter = c) = false := by
    simp [hsrc, Ne.symm hc]
  have hcnt : (s.weak.set j src ++ [dst]).countP
      (fun w => decide (w.counter = c)) = s.weak.countP (fun w => decide (w.counter = c)) := by
    simp only [List.countP_append, List.countP_cons, List.countP_nil, hdst]
    simp only [h2] at hset
    by_cases hh : w.counter = c <;> simp [hh] at hset ⊢ <;> omega
  unfold LogInv at *
  simp only [State.sharedOn, State.weakOn, hcnt] at *
  exact hL

theorem log_destroyShared {c k p : Nat} {d : DeleterType} {log0 : List Event} {s s1 : State}
    {i : Nat} (hG : GroupInv c k s) (hH : HandlesInv c s)
    (hS : s.sharedOn c < SIZE_RANGE) (hW : s.weakOn c < SIZE_RANGE)
    (hL : LogInv c p d log0 s)
    (hstep : step s (Op.destroyShared i) = Except.ok s1) : LogInv c p d log0 s1 := by
  unfold step at hstep
  cases hi : s.shared[i]? with
  | none => simp [hi] at hstep
  | some h =>
    simp only [hi] at hstep
    cases hd : shared_ptr.dtor h s.mem with
    | error f => simp [hd] at hstep
    | ok m1 =>
      simp only [hd, Except.ok.injEq] at hstep
      subst hstep
      obtain ⟨b0, hne, _⟩ := shared_dtor_inv hd
      have hcc : h.counter = c := (hH.1 h (List.getElem?_mem hi)).resolve_left hne
      have hpos : 0 < s.sharedOn c := sharedOn_pos hi hcc
      obtain ⟨b, hb, hsc, hwc⟩ := inv_live hG (Or.inl hpos) hS hW
      obtain ⟨hP, hD, hL1, _, _⟩ := hL
      have hptr : h.ptr = p := hP h (List.getElem?_mem hi) hcc
      have hdel : b.deleter = d := hD b hb
      have hc0 : c ≠ 0 := hcc ▸ hne
      obtain ⟨m2, hm2, hblocks, hlog, -, -⟩ := shared_dtor_spec p hc0 hb
      have hh : h = { counter := c, ptr := p } := by
        cases h
        simp only at hcc hptr
        rw [hcc, hptr]
      rw [hh] at hd
      have heq : m2 = m1 := by
        rw [hd] at hm2
        exact (Except.ok.inj hm2).symm
      subst heq
      have hcount := countP_eraseIdx_add (fun h => decide (h.counter = c)) s.shared i h hi
      simp only [hcc, decide_True, if_true] at hcount
      have hdec : b.SharedCountDec.shared_count = (s.shared.eraseIdx i).countP
          (fun x => decide (x.counter = c)) := by
        simp only [ControlBlock.SharedCountDec, State.sharedOn, SIZE_RANGE_eq] at *
        omega
      rw [hdec, hwc, hdel, hL1 hpos] at hlog
      refine ⟨?_, ?_, ?_, ?_, ?_⟩
      · intro x hx hxc
        exact hP x (List.mem_of_mem_eraseIdx hx) hxc
      · intro b1 hb1
        rw [hblocks] at hb1
        simp only [Function.update_same] at hb1
        split at hb1
        · simp at hb1
        · simp only [Option.some.injEq] at hb1
          subst hb1
          cases b
          exact hdel
      · intro h0
        have h0s : 0 < (s.shared.eraseIdx i).countP (fun x => decide (x.counter = c)) := h0
        rw [hlog]
        have hne0 : (s.shared.eraseIdx i).countP (fun x => decide (x.counter = c)) ≠ 0 := by
          omega
        simp [hne0]
      · intro h0 hw0
        have h0s : (s.shared.eraseIdx i).countP (fun x => decide (x.counter = c)) = 0 := h0
        have hw0s : s.weakOn c ≠ 0 := Nat.pos_iff_ne_zero.1 hw0
        rw [hlog]
        simp [h0s, hw0s]
      · intro h0 hw0
        have h0s : (s.shared.eraseIdx i).countP (fun x => decide (x.counter = c)) = 0 := h0
        have hw0s : s.weakOn c = 0 := hw0
        rw [hlog]
        simp [h0s, hw0s]

theorem log_destroyWeak {c k p : Nat} {d : DeleterType} {log0 : List Event} {s s1 : State}
    {j : Nat} (hG : GroupInv c k s) (hH : HandlesInv c s)
    (hS : s.sharedOn c < SIZE_RANGE) (hW : s.weakOn c < SIZE_RANGE)
    (hL : LogInv c p d log0 s)
    (hstep : step s (Op.destroyWeak j) = Except.ok s1) : LogInv c p d log0 s1 := by
  unfold step at hstep
  cases hj : s.weak[j]? with
  | none => simp [hj] at hstep
  | some w =>
    simp only [hj] at hstep
    cases hd : weak_ptr.dtor w s.mem with
    | error f => simp [hd] at hstep
    | ok m1 =>
      simp only [hd, Except.ok.injEq] at hstep
      subst hstep
      obtain ⟨b0, hne, _⟩ := weak_dtor_inv hd
      have hcc : w.counter = c := (hH.2 w (List.getElem?_mem hj)).resolve_left hne
      have hpos : 0 < s.weakOn c := weakOn_pos hj hcc
      obtain ⟨b, hb, hsc, hwc⟩ := inv_live hG (Or.inr hpos) hS hW
      obtain ⟨hP, hD, hL1, hL2, _⟩ := hL
      have hdel : b.deleter = d := hD b hb
      have hc0 : c ≠ 0 := hcc ▸ hne
      obtain ⟨m2, hm2, hblocks, hlog, -, -⟩ := weak_dtor_spec w.ptr hc0 hb
      have hh : w = { counter := c, ptr := w.ptr } := by
        cases w
        simp only at hcc
        rw [hcc]
      rw [hh] at hd
      have heq : m2 = m1 := by
        rw [hd] at hm2
        exact (Except.ok.inj hm2).symm
      subst heq
      have hcount := countP_eraseIdx_add (fun w => decide (w.counter = c)) s.weak j w hj
      simp only [hcc, decide_True, if_true] at hcount
      have hdec : b.WeakCountDec.weak_count = (s.weak.eraseIdx j).countP
          (fun x => decide (x.counter = c)) := by
        simp only [ControlBlock.WeakCountDec, State.weakOn, SIZE_RANGE_eq] at *
        omega
      rw [hdec, hsc, hdel] at hlog
      refine ⟨hP, ?_, ?_, ?_, ?_⟩
      · intro b1 hb1
        rw [hblocks] at hb1
        simp only [Function.update_same] at hb1
        split at hb1
        · simp at hb1
        · simp only [Option.some.injEq] at hb1
          subst hb1
          cases b
          exact hdel
      · intro h0
        have h0s : s.sharedOn c ≠ 0 := Nat.pos_iff_ne_zero.1 h0
        rw [hlog, hL1 h0]
        simp [h0s]
      · intro h0 hw0
        have h0s : s.sharedOn c = 0 := h0
        have hw0s : (s.weak.eraseIdx j).countP (fun x => decide (x.counter = c)) ≠ 0 :=
          Nat.pos_iff_ne_zero.1 hw0
        rw [hlog, hL2 h0s hpos]
        simp [hw0s]
      · intro h0 hw0
        have h0s : s.sharedOn c = 0 := h0
        have hw0s : (s.weak.eraseIdx j).countP (fun x => decide (x.counter = c)) = 0 := hw0
        rw [hlog, hL2 h0s hpos]
        simp [h0s, hw0s]

theorem log_step {c k p : Nat} {d : DeleterType} {log0 : List Event} {s s1 : State}
    (op : Op) (hc : c ≠ 0) (hG : GroupInv c k s) (hH : HandlesInv c s)
    (hS : s.sharedOn c < SIZE_RANGE) (hW : s.weakOn c < SIZE_RANGE)
    (hL : LogInv c p d log0 s) (hop : ∀ i, op ≠ Op.moveShared i)
    (hstep : step s op = Except.ok s1) : LogInv c p d log0 s1 := by
  cases op with
  | copyShared i => exact log_copyShared hH hL hstep
  | moveShared i => exact absurd rfl (hop i)
  | destroyShared i => exact log_destroyShared hG hH hS hW hL hstep
  | weakFromShared i => exact log_weakFromShared hH hL hstep
  | copyWeak j => exact log_copyWeak hH hL hstep
  | moveWeak j =>
    unfold step at hstep
    cases hj : s.weak[j]? with
    | none => simp [hj] at hstep
    | some w =>
      simp only [hj, Except.ok.injEq] at hstep
      subst hstep
      exact log_weakMoved hc hj rfl rfl hL
  | moveWeakConverting j u =>
    unfold step at hstep
    cases hj : s.weak[j]? with
    | none => simp [hj] at hstep
    | some w =>
      simp only [hj, Except.ok.injEq] at hstep
      subst hstep
      exact log_weakMoved hc hj rfl rfl hL
  | destroyWeak j => exact log_destroyWeak hG hH hS hW hL hstep

/-- Over a program with no `shared_ptr` move and short enough for every handle count to
stay within `size_t`, the log description of the group is kept. -/
theorem log_run {c k p : Nat} {d : DeleterType} {log0 : List Event} (ops : List Op)
    (hc : c ≠ 0) :
    ∀ {s s1 : State}, GroupInv c k s → HandlesInv c s → LogInv c p d log0 s →
      (∀ i, Op.moveShared i ∉ ops) →
      s.shared.length + ops.length < SIZE_RANGE → s.weak.length + ops.length < SIZE_RANGE →
      run s ops = Except.ok s1 → LogInv c p d log0 s1 := by
  induction ops with
  | nil =>
    intro s s1 _ _ hL _ _ _ hrun
    simp only [run, Except.ok.injEq] at hrun
    subst hrun
    exact hL
  | cons op ops ih =>
    intro s s1 hG hH hL hno hlenS hlenW hrun
    simp only [run] at hrun
    cases hs : step s op with
    | error f => simp [hs] at hrun
    | ok s2 =>
      simp only [hs] at hrun
      simp only [List.length_cons] at hlenS hlenW
      have hS : s.sharedOn c < SIZE_RANGE := by
        have := sharedOn_le_length s c
        omega
      have hW : s.weakOn c < SIZE_RANGE := by
        have := weakOn_le_length s c
        omega
      have hop : ∀ i, op ≠ Op.moveShared i := by
        intro i h
        exact hno i (by rw [h]; exact List.mem_cons_self _ _)
      have hlen := step_length op hs
      refine ih (inv_step op hc hG hs) (handles_step op hH hs)
        (log_step op hc hG hH hS hW hL hop hs) ?_ ?_ ?_ hrun
      · intro i hi
        exact hno i (List.mem_cons_of_mem _ hi)
      · omega
      · omega

theorem log_adopted (p : Nat) (d : DeleterType) (alloc c : Nat) (m : Memory) :
    LogInv c p d (m.log ++ [Event.allocate c Footprint.ControlBlock])
      (adopted p d alloc c m) := by
  refine ⟨?_, ?_, ?_, ?_, ?_⟩
  · intro h hh _
    simp only [adopted, shared_ptr.adopt, List.mem_singleton] at hh
    rw [hh]
  · intro b hb
    simp only [adopted, shared_ptr.adopt, Memory.store, Function.update_same,
      Option.some.injEq] at hb
    rw [← hb]
    rfl
  · intro _
    rfl
  · intro h0
    simp [adopted, shared_ptr.adopt, State.sharedOn] at h0
  · intro h0
    simp [adopted, shared_ptr.adopt, State.sharedOn] at h0

/-- Adopting `p` with a user callable `d` through `shared_ptr.adopt` starts a group with
strong count `1` and weak count `0` whose only logged call is the allocation of the
control block alone. Over every program without a `shared_ptr` move (fewer than
`2 ^ 64 - 1` statements) that copies and destroys the group's handles, the log stays so
while a `shared_ptr` of the
group is left; once the last one is destroyed it has gained exactly one call of the
control block's deleter and of `d`, both on `p`, and nothing else; and once no
`weak_ptr` is left either it has gained `destroy()` and the one deallocation, of the
control block alone. The allocator's `destroy` and `delete` are never called. -/
theorem custom_deleter_log_over_programs (p id alloc c : Nat) (m : Memory)
    (ops : List Op) (s : State) (hc : c ≠ 0)
    (hnomove : ∀ i, Op.moveShared i ∉ ops) (hlen : ops.length + 1 < SIZE_RANGE)
    (hrun : run (adopted p (DeleterType.custom id) alloc c m) ops = Except.ok s) :
    (shared_ptr.mk c p).use_count (adopted p (DeleterType.custom id) alloc c m).mem
      = Except.ok 1 ∧
    (shared_ptr.mk c p).weak_count (adopted p (DeleterType.custom id) alloc c m).mem
      = Except.ok 0 ∧
    (adopted p (DeleterType.custom id) alloc c m).shared = [shared_ptr.mk c p] ∧
    (0 < s.sharedOn c → s.mem.log = m.log ++ [Event.allocate c Footprint.ControlBlock]) ∧
    (s.sharedOn c = 0 → 0 < s.weakOn c →
      s.mem.log = m.log ++ [Event.allocate c Footprint.ControlBlock,
        Event.callDeleter c p, Event.customCall id p]) ∧
    (s.sharedOn c = 0 → s.weakOn c = 0 →
      s.mem.log = m.log ++ [Event.allocate c Footprint.ControlBlock,
        Event.callDeleter c p, Event.customCall id p, Event.callDestroy c,
        Event.deallocate c Footprint.ControlBlock]) := by
  have hb : (adopted p (DeleterType.custom id) alloc c m).mem.blocks c
      = some (ControlBlock.construct alloc (DeleterType.custom id)) := by
    simp [adopted, shared_ptr.adopt, Memory.store]
  have hH : HandlesInv c (adopted p (DeleterType.custom id) alloc c m) :=
    handles_reachable [] (Or.inl ⟨p, DeleterType.custom id, alloc, m, rfl⟩) rfl
  have hL := log_run ops hc (inv_adopted p (DeleterType.custom id) alloc c m) hH
    (log_adopted p (DeleterType.custom id) alloc c m) hnomove
    (by simp only [adopted, List.length_singleton]; omega)
    (by simp only [adopted, List.length_nil]; omega) hrun
  obtain ⟨_, _, h1, h2, h3⟩ := hL
  refine ⟨?_, ?_, rfl, h1, ?_, ?_⟩
  · rw [shared_ptr.use_count, CB_GetSharedCount_ok hc hb]; rfl
  · rw [shared_ptr.weak_count, CB_GetWeakCount_ok hc hb]; rfl
  · intro a b
    rw [h2 a b]
    simp [DeleterType.event]
  · intro a b
    rw [h3 a b]
    simp [DeleterType.event]

/-- The log of a concrete program: adopt `7` with the user callable `3`, copy the owner,
take a `weak_ptr`, destroy both owners and then the `weak_ptr`. -/
theorem custom_deleter_log_demo :
    (final (adopted 7 (DeleterType.custom 3) 0 1 demoHeap)
        [Op.copyShared 0, Op.weakFromShared 0, Op.destroyShared 0, Op.destroyShared 0,
          Op.destroyWeak 0]).mem.log
      = demoHeap.log ++ [Event.allocate 1 Footprint.ControlBlock,
        Event.callDeleter 1 7, Event.customCall 3 7, Event.callDestroy 1,
        Event.deallocate 1 Footprint.ControlBlock] :=
  (custom_deleter_log_over_programs 7 3 0 1 demoHeap
    [Op.copyShared 0, Op.weakFromShared 0, Op.destroyShared 0, Op.destroyShared 0,
      Op.destroyWeak 0]
    (final (adopted 7 (DeleterType.custom 3) 0 1 demoHeap)
      [Op.copyShared 0, Op.weakFromShared 0, Op.destroyShared 0, Op.destroyShared 0,
        Op.destroyWeak 0])
    (by decide) (by intro i; simp) (by decide) rfl).2.2.2.2.2 (by decide) (by decide)

/-- The one-argument constructor `shared_ptr(U* ptr)` delegates with `std::allocator<U>()`
as the two-argument one does, and is ill-formed at line 307 in the same way. -/
theorem adoptRaw_ill_formed (ptr c : Nat) (m : Memory) : shared_ptr.adoptRaw ptr c m = none :=
  rfl

/-! ## The claims -/

/-- C1: for a group created by adopting a raw pointer or by in-place construction, after
any client program that runs without fault, `use_count()` read through any live
`shared_ptr` whose control-block pointer is the group's returns the number of live
`shared_ptr` variables with that control-block pointer, as long as that number is a
`size_t` value. -/
theorem C1_use_count_counts_live_shared (c : Nat) (s0 s : State) (ops : List Op)
    (i : Nat) (h : shared_ptr) (hc : c ≠ 0)
    (hinit : (∃ ptr d alloc m, s0 = adopted ptr d alloc c m) ∨
             (∃ alloc v off m, s0 = inPlaced alloc (some v) c off m))
    (hrun : run s0 ops = Except.ok s)
    (hi : s.shared[i]? = some h) (hh : h.counter = c)
    (hfit : s.sharedOn c < SIZE_RANGE) :
    h.use_count s.mem = Except.ok (s.sharedOn c) := by
  have hinv := inv_reachable ops hc hinit hrun
  obtain ⟨b, hb, hsc, _⟩ := inv_live_shared hinv (sharedOn_pos hi hh) hfit
  rw [shared_ptr.use_count, hh, CB_GetSharedCount_ok hc hb, hsc]

/-- C1 at a concrete program: adopt `7` with the control block at `1`, copy, move the
original, copy the moved-to handle, destroy the first copy; two handles are left on
the group and `use_count()` through the last one is `2`. -/
theorem C1_use_count_counts_live_shared_witness :
    (shared_ptr.mk 1 0).use_count
        (final demoAdopted
          [Op.copyShared 0, Op.moveShared 0, Op.copyShared 2, Op.destroyShared 1]).mem
      = Except.ok 2 :=
  C1_use_count_counts_live_shared 1 demoAdopted
    (final demoAdopted [Op.copyShared 0, Op.moveShared 0, Op.copyShared 2, Op.destroyShared 1])
    [Op.copyShared 0, Op.moveShared 0, Op.copyShared 2, Op.destroyShared 1] 2
    (shared_ptr.mk 1 0) (by decide) (Or.inl ⟨7, DeleterType.default_delete, 0, demoHeap, rfl⟩)
    rfl (by decide) rfl (by decide)

/-- C2 (code bug): adopt the payload at `7`, move-construct a second owner and destroy
it as the last `shared_ptr` of the group. The deleter is called once, but on the null
pointer the move constructor left in the new handle; it is never called on `7`, and the
payload `42` is still alive after the control block is gone. -/
theorem C2_last_owner_after_move_deletes_null :
    (run demoAdopted [Op.moveShared 0, Op.destroyShared 1]).toOption.map (fun s => s.mem.log)
      = some [Event.allocate 1 Footprint.ControlBlock, Event.callDeleter 1 0,
              Event.deleteExpr 0, Event.callDestroy 1,
              Event.deallocate 1 Footprint.ControlBlock] ∧
    (run demoAdopted [Op.moveShared 0, Op.destroyShared 1]).toOption.map (fun s => s.shared)
      = some [shared_ptr.mk 0 7] ∧
    (run demoAdopted [Op.moveShared 0, Op.destroyShared 1]).toOption.map
        (fun s => (s.mem.objects 7, s.mem.blocks 1))
      = some (some 42, none) ∧
    deleterCalls 1 (final demoAdopted [Op.moveShared 0, Op.destroyShared 1]).mem.log = 1 ∧
    deleterCallsOn 1 7 (final demoAdopted [Op.moveShared 0, Op.destroyShared 1]).mem.log = 0 := by
  refine ⟨by decide, by decide, by decide, by decide, by decide⟩

/-- C3: in every state a client program reaches from a freshly created group (handle
counts within `size_t`): `destroy()` has been called on the control block once if the
block is gone and not at all if it is still there; the block is gone exactly when no
`shared_ptr` and no `weak_ptr` of the group is left, and while it is there its counters
are the two handle counts; no statement of the program reads a control block that is
not there; and destroying any remaining handle of the group runs without fault. -/
theorem C3_destroy_once_when_both_counts_zero (c : Nat) (s0 s : State) (ops : List Op)
    (hc : c ≠ 0)
    (hinit : (∃ ptr d alloc m, s0 = adopted ptr d alloc c m) ∨
             (∃ alloc v off m, s0 = inPlaced alloc (some v) c off m))
    (hrun : run s0 ops = Except.ok s)
    (hS : s.sharedOn c < SIZE_RANGE) (hW : s.weakOn c < SIZE_RANGE) :
    destroyCalls c s.mem.log
        = destroyCalls c s0.mem.log + (if s.mem.blocks c = none then 1 else 0) ∧
    (s.mem.blocks c = none ↔ s.sharedOn c = 0 ∧ s.weakOn c = 0) ∧
    (∀ b, s.mem.blocks c = some b →
        b.shared_count = s.sharedOn c ∧ b.weak_count = s.weakOn c) ∧
    (∀ op, step s op ≠ Except.error Fault.danglingDeref) ∧
    (∀ (i : Nat) (h : shared_ptr), s.shared[i]? = some h → h.counter = c →
        ∃ s1, step s (Op.destroyShared i) = Except.ok s1) ∧
    (∀ (j : Nat) (w : weak_ptr), s.weak[j]? = some w → w.counter = c →
        ∃ s1, step s (Op.destroyWeak j) = Except.ok s1) := by
  have hinv := inv_reachable ops hc hinit hrun
  have hhand := handles_reachable ops hinit hrun
  have hlive : 0 < s.sharedOn c ∨ 0 < s.weakOn c → ∃ b, s.mem.blocks c = some b :=
    fun hpos => (inv_live hinv hpos hS hW).imp fun b hb => hb.1
  refine ⟨?_, ?_, ?_, ?_, ?_, ?_⟩
  · cases hb : s.mem.blocks c with
    | none => simpa using (hinv.2 hb).2.2
    | some b => simpa using (hinv.1 b hb).2.2.2
  · constructor
    · intro hb
      obtain ⟨h1, h2, _⟩ := hinv.2 hb
      rw [Nat.mod_eq_of_lt hS] at h1
      rw [Nat.mod_eq_of_lt hW] at h2
      exact ⟨h1, h2⟩
    · intro hz
      cases hb : s.mem.blocks c with
      | none => rfl
      | some b =>
        have := (hinv.1 b hb).2.2.1
        omega
  · intro b hb
    obtain ⟨h1, h2, _, _⟩ := hinv.1 b hb
    rw [Nat.mod_eq_of_lt hS] at h1
    rw [Nat.mod_eq_of_lt hW] at h2
    exact ⟨h1, h2⟩
  · intro op
    apply step_no_dangling
    · intro h hh
      rcases hhand.1 h hh with h0 | h1
      · exact Or.inl h0
      · right
        rw [h1]
        obtain ⟨i, hi⟩ := List.mem_iff_getElem?.1 hh
        exact hlive (Or.inl (sharedOn_pos hi h1))
    · intro w hw
      rcases hhand.2 w hw with h0 | h1
      · exact Or.inl h0
      · right
        rw [h1]
        obtain ⟨j, hj⟩ := List.mem_iff_getElem?.1 hw
        exact hlive (Or.inr (weakOn_pos hj h1))
  · intro i h hi hh
    obtain ⟨b, hb⟩ := hlive (Or.inl (sharedOn_pos hi hh))
    obtain ⟨cc, p⟩ := h
    simp only at hh
    subst hh
    obtain ⟨m1, hm1, _⟩ := shared_dtor_spec p hc hb
    exact ⟨{ s with mem := m1, shared := s.shared.eraseIdx i }, by simp [step, hi, hm1]⟩
  · intro j w hj hw
    obtain ⟨b, hb⟩ := hlive (Or.inr (weakOn_pos hj hw))
    obtain ⟨cc, p⟩ := w
    simp only at hw
    subst hw
    obtain ⟨m1, hm1, _⟩ := weak_dtor_spec p hc hb
    exact ⟨{ s with mem := m1, weak := s.weak.eraseIdx j }, by simp [step, hj, hm1]⟩

/-- C3 at a concrete program: adopt, take a `weak_ptr`, copy the owner, then destroy the
original owner, the `weak_ptr` and the copy; `destroy()` has been called exactly once
and the block is gone with no handle left. Before the three destructions, destroying
the first owner or the `weak_ptr` runs without fault. -/
theorem C3_destroy_once_when_both_counts_zero_witness :
    destroyCalls 1 (final demoAdopted [Op.weakFromShared 0, Op.copyShared 0,
        Op.destroyShared 0, Op.destroyWeak 0, Op.destroyShared 0]).mem.log
      = destroyCalls 1 demoAdopted.mem.log +
        (if (final demoAdopted [Op.weakFromShared 0, Op.copyShared 0,
          Op.destroyShared 0, Op.destroyWeak 0, Op.destroyShared 0]).mem.blocks 1 = none
         then 1 else 0) ∧
    ((final demoAdopted [Op.weakFromShared 0, Op.copyShared 0,
        Op.destroyShared 0, Op.destroyWeak 0, Op.destroyShared 0]).mem.blocks 1 = none ↔
      (final demoAdopted [Op.weakFromShared 0, Op.copyShared 0,
        Op.destroyShared 0, Op.destroyWeak 0, Op.destroyShared 0]).sharedOn 1 = 0 ∧
      (final demoAdopted [Op.weakFromShared 0, Op.copyShared 0,
        Op.destroyShared 0, Op.destroyWeak 0, Op.destroyShared 0]).weakOn 1 = 0) ∧
    (∃ s1, step (final demoAdopted [Op.weakFromShared 0, Op.copyShared 0])
        (Op.destroyShared 0) = Except.ok s1) ∧
    (∃ s1, step (final demoAdopted [Op.weakFromShared 0, Op.copyShared 0])
        (Op.destroyWeak 0) = Except.ok s1) :=
  ⟨(C3_destroy_once_when_both_counts_zero 1 demoAdopted
      (final demoAdopted [Op.weakFromShared 0, Op.copyShared 0,
        Op.destroyShared 0, Op.destroyWeak 0, Op.destroyShared 0])
      [Op.weakFromShared 0, Op.copyShared 0, Op.destroyShared 0, Op.destroyWeak 0,
        Op.destroyShared 0]
      (by decide) (Or.inl ⟨7, DeleterType.default_delete, 0, demoHeap, rfl⟩) rfl
      (by decide) (by decide)).1,
   (C3_destroy_once_when_both_counts_zero 1 demoAdopted
      (final demoAdopted [Op.weakFromShared 0, Op.copyShared 0,
        Op.destroyShared 0, Op.destroyWeak 0, Op.destroyShared 0])
      [Op.weakFromShared 0, Op.copyShared 0, Op.destroyShared 0, Op.destroyWeak 0,
        Op.destroyShared 0]
      (by decide) (Or.inl ⟨7, DeleterType.default_delete, 0, demoHeap, rfl⟩) rfl
      (by decide) (by decide)).2.1,
   (C3_destroy_once_when_both_counts_zero 1 demoAdopted
      (final demoAdopted [Op.weakFromShared 0, Op.copyShared 0])
      [Op.weakFromShared 0, Op.copyShared 0]
      (by decide) (Or.inl ⟨7, DeleterType.default_delete, 0, demoHeap, rfl⟩) rfl
      (by decide) (by decide)).2.2.2.2.1 0 (shared_ptr.mk 1 7) rfl rfl,
   (C3_destroy_once_when_both_counts_zero 1 demoAdopted
      (final demoAdopted [Op.weakFromShared 0, Op.copyShared 0])
      [Op.weakFromShared 0, Op.copyShared 0]
      (by decide) (Or.inl ⟨7, DeleterType.default_delete, 0, demoHeap, rfl⟩) rfl
      (by decide) (by decide)).2.2.2.2.2 0 (weak_ptr.mk 1 7) rfl rfl⟩

/-- C4 (code bug): the constructor from a `weak_ptr` reads its own uninitialised members
and never the `weak_ptr`, and it increments without looking at the strong count. On the
expired group left by adopt / take a `weak_ptr` / destroy the owner, with storage that
happens to hold the `weak_ptr`'s two pointers, `lock()` returns a non-empty handle and
raises the strong count from `0` to `1`; with zeroed storage it reads through a null
pointer, also when the group is alive; it never returns an empty handle; and its result
does not depend on the `weak_ptr` it is given. -/
theorem C4_lock_reads_uninitialised_members :
    (weak_ptr.expired (weak_ptr.mk 1 7)
        (final demoAdopted [Op.weakFromShared 0, Op.destroyShared 0]).mem).toOption
      = some true ∧
    (weak_ptr.lock (shared_ptr.mk 1 7) (weak_ptr.mk 1 7)
        (final demoAdopted [Op.weakFromShared 0, Op.destroyShared 0]).mem).toOption.map
        (fun r => (r.1, r.2.blocks 1))
      = some (shared_ptr.mk 1 7, some (ControlBlock.mk 1 1 0 DeleterType.default_delete)) ∧
    (∀ (p : Nat) (w : weak_ptr) (m : Memory),
      weak_ptr.lock (shared_ptr.mk 0 p) w m = Except.error Fault.nullDeref) ∧
    (∀ (uninit : shared_ptr) (w : weak_ptr) (m : Memory),
      (weak_ptr.lock uninit w m).toOption.map (fun r => r.1) ≠ some (shared_ptr.mk 0 0)) ∧
    (∀ (uninit : shared_ptr) (w1 w2 : weak_ptr) (m : Memory),
      weak_ptr.lock uninit w1 m = weak_ptr.lock uninit w2 m) := by
  refine ⟨by decide, by decide, ?_, ?_, fun _ _ _ _ => rfl⟩
  · intro p w m
    simp [weak_ptr.lock, shared_ptr.fromWeak, CB_BASE.SharedCountInc, load_null, bind,
      Except.bind]
  · intro uninit w m
    rcases load_cases m uninit.counter with ⟨_, hl⟩ | ⟨_, _, hl⟩ | ⟨b, hc, _, hl⟩
    · simp [weak_ptr.lock, shared_ptr.fromWeak, CB_BASE.SharedCountInc, hl, bind, Except.bind,
        Except.toOption]
    · simp [weak_ptr.lock, shared_ptr.fromWeak, CB_BASE.SharedCountInc, hl, bind, Except.bind,
        Except.toOption]
    · simp [weak_ptr.lock, shared_ptr.fromWeak, CB_BASE.SharedCountInc, hl, bind, Except.bind,
        Except.toOption, pure, Except.pure]
      intro h
      exact absurd h hc

/-- C5 (code bug): the move constructor clears the payload pointer of the handle it is
building, not of its source: the new handle holds the source's control-block pointer and
a null payload pointer, and the source keeps its payload pointer. -/
theorem C5_move_nulls_new_handle_payload :
    (∀ a : shared_ptr, shared_ptr.move a
      = ({ counter := a.counter, ptr := 0 }, { counter := 0, ptr := a.ptr })) ∧
    (shared_ptr.move (shared_ptr.mk 1 7)).1.ptr = 0 ∧
    (shared_ptr.move (shared_ptr.mk 1 7)).2.ptr = 7 :=
  ⟨fun _ => rfl, rfl, rfl⟩

/-- C6 (code bug): after a move from the handle `(1, 7)` the new handle has a control
block and a null payload pointer, so its boolean conversion is false although it holds
a control block, and the source has no control block and a non-null payload pointer, so
its boolean conversion is true. -/
theorem C6_move_unpairs_the_two_pointers :
    (shared_ptr.move (shared_ptr.mk 1 7)).1.counter ≠ 0 ∧
    (shared_ptr.move (shared_ptr.mk 1 7)).1.ptr = 0 ∧
    (shared_ptr.move (shared_ptr.mk 1 7)).1.toBool = false ∧
    (shared_ptr.move (shared_ptr.mk 1 7)).2.counter = 0 ∧
    (shared_ptr.move (shared_ptr.mk 1 7)).2.ptr ≠ 0 ∧
    (shared_ptr.move (shared_ptr.mk 1 7)).2.toBool = true := by
  decide

/-- C7 (code bug): the destructor calls `counter->SharedCountDec()` without testing
`counter`; on a default-constructed handle, on one constructed from `nullptr` and on the
source of a move it reads through a null pointer, on every heap. -/
theorem C7_destroying_empty_handle_reads_null (m : Memory) :
    shared_ptr.dtor shared_ptr.default m = Except.error Fault.nullDeref ∧
    shared_ptr.dtor shared_ptr.null m = Except.error Fault.nullDeref ∧
    shared_ptr.dtor (shared_ptr.move (shared_ptr.mk 1 7)).2 m = Except.error Fault.nullDeref :=
  ⟨shared_dtor_null 0 m, shared_dtor_null 0 m, shared_dtor_null 7 m⟩

/-- C8: copy-constructing from a `shared_ptr` that holds a live control block (strong
count below the largest `size_t`) gives a handle with the same two pointers, raises the
strong count by exactly one, leaves the weak count, every other control block, the
payload objects and the allocations as they were, logs no deleter or `destroy()` call,
and leaves the source variable unchanged. -/
theorem C8_copy_shares_and_increments (s : State) (i : Nat) (a : shared_ptr)
    (b : ControlBlock) (hi : s.shared[i]? = some a) (hne : a.counter ≠ 0)
    (hb : s.mem.blocks a.counter = some b) (hfit : b.shared_count + 1 < SIZE_RANGE) :
    ∃ m1, shared_ptr.copy a s.mem = Except.ok (a, m1) ∧
      m1.blocks a.counter = some { b with shared_count := b.shared_count + 1 } ∧
      (∀ x, x ≠ a.counter → m1.blocks x = s.mem.blocks x) ∧
      m1.log = s.mem.log ∧ m1.objects = s.mem.objects ∧ m1.allocs = s.mem.allocs ∧
      step s (Op.copyShared i)
        = Except.ok { s with mem := m1, shared := s.shared ++ [a] } ∧
      (s.shared ++ [a])[i]? = some a := by
  obtain ⟨c, p⟩ := a
  simp only at hne hb
  refine ⟨s.mem.store c b.SharedCountInc, shared_copy_ok p hne hb, ?_, ?_, rfl, rfl, rfl, ?_, ?_⟩
  · simp [Memory.store, ControlBlock.SharedCountInc, Nat.mod_eq_of_lt hfit]
  · intro x hx
    simp [Memory.store, Function.update_noteq hx]
  · simp [step, hi, shared_copy_ok p hne hb]
  · have hlt : i < s.shared.length := (List.getElem?_eq_some_iff.1 hi).1
    rw [List.getElem?_append_left hlt]
    exact hi

/-- C8 at a concrete state: the copy of the handle `(1, 7)` right after adoption. -/
theorem C8_copy_shares_and_increments_witness :
    ∃ m1, shared_ptr.copy (shared_ptr.mk 1 7) demoAdopted.mem
        = Except.ok (shared_ptr.mk 1 7, m1) ∧
      m1.blocks (shared_ptr.mk 1 7).counter
        = some (ControlBlock.mk 2 0 0 DeleterType.default_delete) ∧
      (∀ x, x ≠ (shared_ptr.mk 1 7).counter → m1.blocks x = demoAdopted.mem.blocks x) ∧
      m1.log = demoAdopted.mem.log ∧ m1.objects = demoAdopted.mem.objects ∧
      m1.allocs = demoAdopted.mem.allocs ∧
      step demoAdopted (Op.copyShared 0)
        = Except.ok (State.mk m1 (demoAdopted.shared ++ [shared_ptr.mk 1 7]) demoAdopted.weak) ∧
      (demoAdopted.shared ++ [shared_ptr.mk 1 7])[0]? = some (shared_ptr.mk 1 7) :=
  C8_copy_shares_and_increments demoAdopted 0 (shared_ptr.mk 1 7)
    (ControlBlock.construct 0 DeleterType.default_delete) rfl (by decide) rfl (by decide)

/-- C9: in every state a client program reaches from a freshly created group (number of
live `weak_ptr` variables on the group within `size_t`), `weak_count()` read through any
live `weak_ptr` of the group is the number of live `weak_ptr` variables whose
control-block pointer is the group's, whatever the number of `shared_ptr` variables;
and constructing a `weak_ptr` from a `shared_ptr` of the group copies both pointers,
raises the weak count by exactly one, leaves the strong count unchanged and logs
nothing. -/
theorem C9_weak_count_counts_live_weak (c : Nat) (s0 s : State) (ops : List Op)
    (hc : c ≠ 0)
    (hinit : (∃ ptr d alloc m, s0 = adopted ptr d alloc c m) ∨
             (∃ alloc v off m, s0 = inPlaced alloc (some v) c off m))
    (hrun : run s0 ops = Except.ok s)
    (hW : s.weakOn c < SIZE_RANGE) :
    (∀ (j : Nat) (w : weak_ptr), s.weak[j]? = some w → w.counter = c →
        w.weak_count s.mem = Except.ok (s.weakOn c)) ∧
    (∀ (i : Nat) (h : shared_ptr), s.shared[i]? = some h → h.counter = c →
        s.sharedOn c < SIZE_RANGE → s.weakOn c + 1 < SIZE_RANGE →
        ∃ s1, step s (Op.weakFromShared i) = Except.ok s1 ∧
          s1.weak = s.weak ++ [{ counter := h.counter, ptr := h.ptr }] ∧
          s1.shared = s.shared ∧
          h.weak_count s.mem = Except.ok (s.weakOn c) ∧
          h.weak_count s1.mem = Except.ok (s.weakOn c + 1) ∧
          s1.weakOn c = s.weakOn c + 1 ∧
          h.use_count s1.mem = h.use_count s.mem ∧
          h.use_count s.mem = Except.ok (s.sharedOn c) ∧
          s1.mem.log = s.mem.log) := by
  have hinv := inv_reachable ops hc hinit hrun
  constructor
  · intro j w hj hw
    obtain ⟨b, hb, _, hwc⟩ := inv_live_weak hinv (weakOn_pos hj hw) hW
    rw [weak_ptr.weak_count, hw, CB_GetWeakCount_ok hc hb, hwc]
  · intro i h hi hh hS hW1
    obtain ⟨b, hb, hsc, hwc⟩ := inv_live_shared hinv (sharedOn_pos hi hh) hS
    rw [Nat.mod_eq_of_lt hW] at hwc
    obtain ⟨cc, p⟩ := h
    simp only at hh
    subst hh
    have hb1 : (s.mem.store cc b.WeakCountInc).blocks cc = some b.WeakCountInc :=
      store_blocks_same _ _ _
    have hinc : b.WeakCountInc.weak_count = s.weakOn cc + 1 := by
      simp [ControlBlock.WeakCountInc, hwc, Nat.mod_eq_of_lt hW1]
    have hsame : b.WeakCountInc.shared_count = b.shared_count := by cases b; rfl
    refine ⟨{ s with mem := s.mem.store cc b.WeakCountInc,
                     weak := s.weak ++ [{ counter := cc, ptr := p }] }, ?_, rfl, rfl, ?_, ?_, ?_,
      ?_, ?_, rfl⟩
    · simp [step, hi, weak_fromShared_ok p hc hb]
    · rw [shared_ptr.weak_count, CB_GetWeakCount_ok hc hb, hwc]
    · rw [shared_ptr.weak_count, CB_GetWeakCount_ok hc hb1, hinc]
    · simp [State.weakOn]
    · simp only [shared_ptr.use_count]
      rw [CB_GetSharedCount_ok hc hb1, CB_GetSharedCount_ok hc hb, hsame]
    · rw [shared_ptr.use_count, CB_GetSharedCount_ok hc hb, hsc]

/-- C9 at a concrete program: adopt, take a `weak_ptr`, copy it, move the first, move the
copy through the converting constructor, destroy the owner, destroy one `weak_ptr`; one
`weak_ptr` of the group is left and `weak_count()` through it is `1`. And right after
adopt / take a `weak_ptr`, taking a second one from the owner `(1, 7)` appends the
handle `(1, 7)` and moves the weak count from `1` to `2` with `use_count()` unchanged. -/
theorem C9_weak_count_counts_live_weak_witness :
    (weak_ptr.mk 1 99).weak_count
        (final demoAdopted [Op.weakFromShared 0, Op.copyWeak 0, Op.moveWeak 0,
          Op.moveWeakConverting 1 99, Op.destroyShared 0, Op.destroyWeak 2]).mem
      = Except.ok 1 ∧
    (∃ s1, step (final demoAdopted [Op.weakFromShared 0]) (Op.weakFromShared 0) = Except.ok s1 ∧
      s1.weak = (final demoAdopted [Op.weakFromShared 0]).weak ++ [weak_ptr.mk 1 7] ∧
      s1.shared = (final demoAdopted [Op.weakFromShared 0]).shared ∧
      (shared_ptr.mk 1 7).weak_count (final demoAdopted [Op.weakFromShared 0]).mem
        = Except.ok ((final demoAdopted [Op.weakFromShared 0]).weakOn 1) ∧
      (shared_ptr.mk 1 7).weak_count s1.mem
        = Except.ok ((final demoAdopted [Op.weakFromShared 0]).weakOn 1 + 1) ∧
      s1.weakOn 1 = (final demoAdopted [Op.weakFromShared 0]).weakOn 1 + 1 ∧
      (shared_ptr.mk 1 7).use_count s1.mem
        = (shared_ptr.mk 1 7).use_count (final demoAdopted [Op.weakFromShared 0]).mem ∧
      (shared_ptr.mk 1 7).use_count (final demoAdopted [Op.weakFromShared 0]).mem
        = Except.ok ((final demoAdopted [Op.weakFromShared 0]).sharedOn 1) ∧
      s1.mem.log = (final demoAdopted [Op.weakFromShared 0]).mem.log) :=
  ⟨(C9_weak_count_counts_live_weak 1 demoAdopted
      (final demoAdopted [Op.weakFromShared 0, Op.copyWeak 0, Op.moveWeak 0,
        Op.moveWeakConverting 1 99, Op.destroyShared 0, Op.destroyWeak 2])
      [Op.weakFromShared 0, Op.copyWeak 0, Op.moveWeak 0, Op.moveWeakConverting 1 99,
        Op.destroyShared 0, Op.destroyWeak 2]
      (by decide) (Or.inl ⟨7, DeleterType.default_delete, 0, demoHeap, rfl⟩) rfl
      (by decide)).1 2 (weak_ptr.mk 1 99) rfl rfl,
   (C9_weak_count_counts_live_weak 1 demoAdopted
      (final demoAdopted [Op.weakFromShared 0]) [Op.weakFromShared 0]
      (by decide) (Or.inl ⟨7, DeleterType.default_delete, 0, demoHeap, rfl⟩) rfl
      (by decide)).2 0 (shared_ptr.mk 1 7) rfl rfl (by decide) (by decide)⟩

/-- C10: for every payload value `v`, `allocate_shared` (and `make_shared`, which is the
case `alloc = 0`) on one combined record at `r` yields a non-empty handle `A` with
`use_count() = 1`, `weak_count() = 0` and `*A = v`, the payload sitting inside the one
allocated record; copying `A` into `B` gives `use_count() = 2`; destroying `A` leaves
`B.use_count() = 1` and `*B = v` and logs nothing; destroying `B` then calls the deleter
once on the payload, which is `DefaultDeleter`, then `destroy()`, which gives the record
back in one `deallocate` of the combined footprint. -/
theorem C10_in_place_scenario (alloc : Nat) (v : Int) (r off : Nat) (m : Memory)
    (hr : r ≠ 0) :
    ∃ A m1, smart_ptr.allocate_shared alloc (some v) r off m = Except.ok (A, m1) ∧
      smart_ptr.make_shared (some v) r off m = smart_ptr.allocate_shared 0 (some v) r off m ∧
      A = { counter := r, ptr := r + off } ∧ A.toBool = true ∧
      A.use_count m1 = Except.ok 1 ∧ A.weak_count m1 = Except.ok 0 ∧
      A.deref m1 = Except.ok v ∧
      m1.log = m.log ++ [Event.allocate r Footprint.ControlData, Event.construct (r + off) v,
        Event.print] ∧
      m1.allocs r = some Footprint.ControlData ∧
      ∃ B m2, shared_ptr.copy A m1 = Except.ok (B, m2) ∧ B = A ∧
        A.use_count m2 = Except.ok 2 ∧ B.use_count m2 = Except.ok 2 ∧ m2.log = m1.log ∧
        ∃ m3, A.dtor m2 = Except.ok m3 ∧ B.use_count m3 = Except.ok 1 ∧
          B.deref m3 = Except.ok v ∧ m3.log = m2.log ∧
          ∃ m4, B.dtor m3 = Except.ok m4 ∧
            m4.log = m3.log ++ [Event.callDeleter r (r + off), Event.allocDestroy (r + off),
              Event.callDestroy r, Event.deallocate r Footprint.ControlData] ∧
            m4.objects (r + off) = none ∧ m4.blocks r = none ∧ m4.allocs r = none := by
  have hp : r + off ≠ 0 := by omega
  refine ⟨{ counter := r, ptr := r + off }, _, rfl, rfl, rfl, ?_, ?_, ?_, ?_, ?_, ?_, ?_⟩
  · simp [shared_ptr.toBool, shared_ptr.get, hp]
  · simp [shared_ptr.use_count, CB_BASE.GetSharedCount, Memory.load, hr, Memory.store,
      bind, Except.bind, pure, Except.pure, ControlBlock.GetSharedCount, ControlBlock.construct]
  · simp [shared_ptr.weak_count, CB_BASE.GetWeakCount, Memory.load, hr, Memory.store,
      bind, Except.bind, pure, Except.pure, ControlBlock.GetWeakCount, ControlBlock.construct]
  · simp [shared_ptr.deref, hp, Memory.store, Memory.emit, Memory.allocate]
  · simp [Memory.store, Memory.emit, Memory.allocate]
  · simp [Memory.store, Memory.emit, Memory.allocate]
  · apply in_place_copy_destroy_destroy _ r (r + off) alloc v hr hp
    · simp [Memory.store]
    · simp [Memory.store, Memory.emit, Memory.allocate]

/-- C10 at `v = 42`: `make_shared<int>(42)` with the combined record at address `1` and the
payload at offset `1` in it, on an empty heap. -/
theorem C10_in_place_scenario_witness :
    ∃ A m1, smart_ptr.allocate_shared 0 (some 42) 1 1 Memory.empty = Except.ok (A, m1) ∧
      smart_ptr.make_shared (some 42) 1 1 Memory.empty
        = smart_ptr.allocate_shared 0 (some 42) 1 1 Memory.empty ∧
      A = { counter := 1, ptr := 1 + 1 } ∧ A.toBool = true ∧
      A.use_count m1 = Except.ok 1 ∧ A.weak_count m1 = Except.ok 0 ∧
      A.deref m1 = Except.ok 42 ∧
      m1.log = Memory.empty.log ++ [Event.allocate 1 Footprint.ControlData,
        Event.construct (1 + 1) 42, Event.print] ∧
      m1.allocs 1 = some Footprint.ControlData ∧
      ∃ B m2, shared_ptr.copy A m1 = Except.ok (B, m2) ∧ B = A ∧
        A.use_count m2 = Except.ok 2 ∧ B.use_count m2 = Except.ok 2 ∧ m2.log = m1.log ∧
        ∃ m3, A.dtor m2 = Except.ok m3 ∧ B.use_count m3 = Except.ok 1 ∧
          B.deref m3 = Except.ok 42 ∧ m3.log = m2.log ∧
          ∃ m4, B.dtor m3 = Except.ok m4 ∧
            m4.log = m3.log ++ [Event.callDeleter 1 (1 + 1), Event.allocDestroy (1 + 1),
              Event.callDestroy 1, Event.deallocate 1 Footprint.ControlData] ∧
            m4.objects (1 + 1) = none ∧ m4.blocks 1 = none ∧ m4.allocs 1 = none :=
  C10_in_place_scenario 0 42 1 1 Memory.empty (by decide)

/-- C11 (code bug): the two-argument constructor `shared_ptr(U* ptr, Deleter d)` delegates
to the three-argument one with `std::allocator<U>()`, and line 307 then hands `counter`,
a `CB_BASE*`, to `allocator_traits::construct`, so `std::allocator` is asked to build the
abstract `CB_BASE`: the constructor has no instantiation, and adopting `p` with a
deleter `d` yields no handle and no group, for every `p`, `d` and heap; the same holds
for the three-argument constructor called with `std::allocator`. The in-place
constructor casts `counter` to the control block type before the same call (lines
528-529), which `std::allocator` serves. With an allocator that builds its `value_type`
at the pointer it is given the three-argument constructor runs, and on the payload `7`
adopted with the user callable `3`, copying the owner and destroying both owners logs
one deleter call and one call of the callable, both on `7`, then `destroy()` and the
deallocation of the control block alone. -/
theorem C11_adoption_with_deleter_is_ill_formed :
    (∀ (ptr : Nat) (d : DeleterType) (c : Nat) (m : Memory),
      shared_ptr.adoptWithDeleter ptr d c m = none) ∧
    (∀ (ptr : Nat) (d : DeleterType) (alloc c : Nat) (m : Memory),
      shared_ptr.adoptAs AllocKind.std ptr d alloc c m = none) ∧
    AllocKind.std.constructs Pointee.CB_BASE = none ∧
    AllocKind.std.constructs Pointee.ControlBlock = some Pointee.ControlBlock ∧
    (∀ (ptr : Nat) (d : DeleterType) (alloc c : Nat) (m : Memory),
      shared_ptr.adoptAs AllocKind.buildsValueType ptr d alloc c m
        = some (shared_ptr.adopt ptr d alloc c m)) ∧
    ((shared_ptr.adoptAs AllocKind.buildsValueType 7 (DeleterType.custom 3) 0 1 demoHeap).map
        (fun r => (r.1, r.2.blocks 1))
      = some (shared_ptr.mk 1 7, some (ControlBlock.mk 1 0 0 (DeleterType.custom 3)))) ∧
    ((run (adopted 7 (DeleterType.custom 3) 0 1 demoHeap)
        [Op.copyShared 0, Op.destroyShared 0, Op.destroyShared 0]).toOption.map
        (fun s => s.mem.log)
      = some [Event.allocate 1 Footprint.ControlBlock, Event.callDeleter 1 7,
              Event.customCall 3 7, Event.callDestroy 1,
              Event.deallocate 1 Footprint.ControlBlock]) :=
  ⟨fun _ _ _ _ => rfl, fun _ _ _ _ _ => rfl, rfl, rfl, fun _ _ _ _ _ => rfl, by decide,
    by decide⟩

/-- C12: for a handle `A = (c, p)` that is the only handle of its group (counts `1` and
`0`): constructing `W` from `A` logs nothing; destroying `A` then calls the deleter once,
on `p`, does not call `destroy()`, leaves the block constructed with counts `0` and `1`,
and `W.expired()` is true and `W.use_count()` is `0`; destroying `W` then calls
`destroy()` once, with one deallocation, calls no deleter, and the block is gone. -/
theorem C12_weak_outlives_last_owner (m : Memory) (c p a : Nat) (d : DeleterType)
    (hc : c ≠ 0) (hb : m.blocks c = some (ControlBlock.construct a d)) :
    ∃ W m1, weak_ptr.fromShared { counter := c, ptr := p } m = Except.ok (W, m1) ∧
      W = { counter := c, ptr := p } ∧ m1.log = m.log ∧
      ∃ m2, shared_ptr.dtor { counter := c, ptr := p } m1 = Except.ok m2 ∧
        m2.log = m.log ++ [Event.callDeleter c p, d.event p] ∧
        m2.blocks c = some (ControlBlock.mk 0 1 a d) ∧
        W.expired m2 = Except.ok true ∧ W.use_count m2 = Except.ok 0 ∧
        ∃ m3, W.dtor m2 = Except.ok m3 ∧
          m3.log = m2.log ++ [Event.callDestroy c,
            Event.deallocate c (if d = DeleterType.DefaultDeleter then Footprint.ControlData
              else Footprint.ControlBlock)] ∧
          m3.blocks c = none := by
  have hinc : (ControlBlock.construct a d).WeakCountInc = ControlBlock.mk 1 1 a d := by
    simp [ControlBlock.construct, ControlBlock.WeakCountInc, SIZE_RANGE_eq]
  have hdecS : (ControlBlock.mk 1 1 a d).SharedCountDec = ControlBlock.mk 0 1 a d := by
    simp [ControlBlock.SharedCountDec, SIZE_RANGE_eq]
  have hdecW : (ControlBlock.mk 0 1 a d).WeakCountDec = ControlBlock.mk 0 0 a d := by
    simp [ControlBlock.WeakCountDec, SIZE_RANGE_eq]
  have hb1 : (m.store c (ControlBlock.construct a d).WeakCountInc).blocks c
      = some (ControlBlock.mk 1 1 a d) := by
    rw [store_blocks_same, hinc]
  obtain ⟨m2, hm2, hblk2, hlog2, _, _⟩ := shared_dtor_spec p hc hb1
  rw [hdecS] at hblk2 hlog2
  simp only [one_ne_zero, and_false, if_false, if_true, List.append_nil] at hblk2 hlog2
  have hb2 : m2.blocks c = some (ControlBlock.mk 0 1 a d) := by
    rw [hblk2, Function.update_same]
  obtain ⟨m3, hm3, hblk3, hlog3, _, _⟩ := weak_dtor_spec p hc hb2
  rw [hdecW] at hblk3 hlog3
  simp only [and_self, if_true] at hblk3 hlog3
  refine ⟨_, _, weak_fromShared_ok p hc hb, rfl, rfl, m2, hm2, ?_, hb2, ?_, ?_, m3, hm3, hlog3, ?_⟩
  · rw [hlog2]; rfl
  · simp [weak_ptr.expired, CB_GetSharedCount_ok hc hb2, bind, Except.bind, pure, Except.pure]
  · rw [weak_ptr.use_count, CB_GetSharedCount_ok hc hb2]
  · rw [hblk3, Function.update_same]

/-- C12 at a concrete heap: the owner `(1, 7)` right after its adoption in `demoAdopted`. -/
theorem C12_weak_outlives_last_owner_witness :
    ∃ W m1, weak_ptr.fromShared (shared_ptr.mk 1 7) demoAdopted.mem = Except.ok (W, m1) ∧
      W = weak_ptr.mk 1 7 ∧ m1.log = demoAdopted.mem.log ∧
      ∃ m2, shared_ptr.dtor (shared_ptr.mk 1 7) m1 = Except.ok m2 ∧
        m2.log = demoAdopted.mem.log
          ++ [Event.callDeleter 1 7, DeleterType.default_delete.event 7] ∧
        m2.blocks 1 = some (ControlBlock.mk 0 1 0 DeleterType.default_delete) ∧
        W.expired m2 = Except.ok true ∧ W.use_count m2 = Except.ok 0 ∧
        ∃ m3, W.dtor m2 = Except.ok m3 ∧
          m3.log = m2.log ++ [Event.callDestroy 1,
            Event.deallocate 1 (if DeleterType.default_delete = DeleterType.DefaultDeleter
              then Footprint.ControlData else Footprint.ControlBlock)] ∧
          m3.blocks 1 = none :=
  C12_weak_outlives_last_owner demoAdopted.mem 1 7 0 DeleterType.default_delete (by decide) rfl

/-- C13 (code bug): `shared_ptr::operator=(const shared_ptr&)` runs its copy-and-swap
statement and then reaches the closing brace of a function returning `shared_ptr&`
without a `return`: no call of it ends in a `return` statement, while the same
statement in `weak_ptr::operator=` is followed by `return *this;`. For `a = (1, 7)` and
`b = (2, 8)` on two groups the statement leaves `*this = (2, 8)`, group `2` at strong
count `2` and group `1` released (deleter on `7`, block gone); for `a = a` it leaves
`a` and the counters `(2, 0)` of its group as they were and logs nothing. -/
theorem C13_copy_assignment_never_returns :
    (∀ (self rhs : shared_ptr) (m : Memory), (shared_ptr.assign self rhs m).isReturned = false) ∧
    (∀ (self rhs : weak_ptr) (m : Memory), (weak_ptr.assign self rhs m).state.isSome = true →
      (weak_ptr.assign self rhs m).isReturned = true) ∧
    ((shared_ptr.assign (shared_ptr.mk 1 7) (shared_ptr.mk 2 8)
        (shared_ptr.adopt 8 DeleterType.default_delete 0 2 demoAdopted.mem).2).state.map
        (fun r => (r.1, r.2.blocks 1, r.2.blocks 2, r.2.log.drop 2))
      = some (shared_ptr.mk 2 8, none,
          some (ControlBlock.mk 2 0 0 DeleterType.default_delete),
          [Event.callDeleter 1 7, Event.deleteExpr 7, Event.callDestroy 1,
           Event.deallocate 1 Footprint.ControlBlock])) ∧
    ((shared_ptr.assign (shared_ptr.mk 1 7) (shared_ptr.mk 1 7)
        (final demoAdopted [Op.copyShared 0]).mem).state.map
        (fun r => (r.1, r.2.blocks 1, r.2.log))
      = some (shared_ptr.mk 1 7, some (ControlBlock.mk 2 0 0 DeleterType.default_delete),
          [Event.allocate 1 Footprint.ControlBlock])) := by
  refine ⟨?_, ?_, by decide, by decide⟩
  · intro self rhs m
    unfold shared_ptr.assign
    cases shared_ptr.copy rhs m with
    | error f => rfl
    | ok r =>
      obtain ⟨tmp, m1⟩ := r
      simp only
      cases shared_ptr.dtor (shared_ptr.swap tmp self).1 m1 <;> rfl
  · intro self rhs m
    unfold weak_ptr.assign
    cases weak_ptr.copy rhs m with
    | error f => simp [Completion.state]
    | ok r =>
      obtain ⟨tmp, m1⟩ := r
      simp only
      cases weak_ptr.dtor (weak_ptr.swap tmp self).1 m1 <;> simp [Completion.state, Completion.isReturned]

/-- C14: `shared_ptr::swap` and `weak_ptr::swap` exchange the two pointer members of the
two handles, for all handles, empty or not; they are functions of the two handles alone
and neither read nor change the heap. -/
theorem C14_swap_exchanges_fields (a b : shared_ptr) (v w : weak_ptr) :
    (shared_ptr.swap a b).1 = b ∧ (shared_ptr.swap a b).2 = a ∧
    (weak_ptr.swap v w).1 = w ∧ (weak_ptr.swap v w).2 = v :=
  ⟨rfl, rfl, rfl, rfl⟩

/-- C15 as amended: when the record allocation succeeds and the payload constructor
throws, in-place construction reports the failure to its caller, no control block and
no payload object has been constructed and no handle is produced, and the record is not
given back: the allocation made for it is still outstanding and the only logged call is
that `allocate`. -/
theorem C15_throwing_payload_leaves_record_allocated (alloc r off : Nat) (m : Memory) :
    ∃ m1, smart_ptr.allocate_shared alloc none r off m = Except.error m1 ∧
      smart_ptr.make_shared none r off m = smart_ptr.allocate_shared 0 none r off m ∧
      m1.allocs r = some Footprint.ControlData ∧
      m1.log = m.log ++ [Event.allocate r Footprint.ControlData] ∧
      m1.blocks = m.blocks ∧ m1.objects = m.objects :=
  ⟨_, rfl, rfl, by simp [Memory.allocate], rfl, rfl, rfl⟩

/-- C15 as stated fails: `make_shared<int>` with a throwing payload constructor, the record
being allocated at address `1` on an empty heap, reports the failure with the record
still allocated and no `deallocate` in the log. -/
theorem C15_counterexample :
    ∃ m1, smart_ptr.make_shared none 1 1 Memory.empty = Except.error m1 ∧
      m1.allocs 1 = some Footprint.ControlData ∧
      m1.log = [Event.allocate 1 Footprint.ControlData] ∧
      Event.deallocate 1 Footprint.ControlData ∉ m1.log :=
  ⟨_, rfl, by decide, rfl, by decide⟩

/-- C16 (code bug): adopt the payload at `7` with a user-supplied deleter of the library
type `DefaultDeleter<T, Alloc>` and destroy the handle. The control block was allocated
alone (footprint `ControlBlock`), and `destroy()`, which tells the layouts apart by the
deleter type, gives it back as a combined record (footprint `ControlData`). With
`std::default_delete` or a user callable the footprint given back is the one allocated,
and so it is for an in-place group. -/
theorem C16_adopted_DefaultDeleter_frees_combined_footprint :
    (run (adopted 7 DeleterType.DefaultDeleter 0 1 demoHeap) [Op.destroyShared 0]).toOption.map
        (fun s => s.mem.log)
      = some [Event.allocate 1 Footprint.ControlBlock, Event.callDeleter 1 7,
              Event.allocDestroy 7, Event.callDestroy 1,
              Event.deallocate 1 Footprint.ControlData] ∧
    (run (adopted 7 (DeleterType.custom 3) 0 1 demoHeap) [Op.destroyShared 0]).toOption.map
        (fun s => s.mem.log)
      = some [Event.allocate 1 Footprint.ControlBlock, Event.callDeleter 1 7,
              Event.customCall 3 7, Event.callDestroy 1,
              Event.deallocate 1 Footprint.ControlBlock] ∧
    (run (inPlaced 0 (some 42) 1 1 Memory.empty) [Op.destroyShared 0]).toOption.map
        (fun s => s.mem.log)
      = some [Event.allocate 1 Footprint.ControlData, Event.construct 2 42, Event.print,
              Event.callDeleter 1 2, Event.allocDestroy 2, Event.callDestroy 1,
              Event.deallocate 1 Footprint.ControlData] := by
  refine ⟨by decide, by decide, by decide⟩

/-- C17: destroying a handle `(c, p)` on a live control block with strong count `s ≥ 1`
and weak count `w` succeeds and does exactly one of three things: if `s - 1 = 0` and
`w = 0`, it calls the deleter on `p` and then `destroy()`, and the block is gone; if
`s - 1 = 0` and `w > 0`, it calls the deleter on `p` only and the block stays with counts
`(0, w)`; if `s - 1 > 0`, it logs nothing and the block stays with counts `(s - 1, w)`.
No other control block changes. -/
theorem C17_shared_destructor_protocol (m : Memory) (c p : Nat) (b : ControlBlock)
    (hc : c ≠ 0) (hb : m.blocks c = some b)
    (hs : 1 ≤ b.shared_count) (hfit : b.shared_count < SIZE_RANGE) :
    ∃ m1, shared_ptr.dtor { counter := c, ptr := p } m = Except.ok m1 ∧
      (b.shared_count - 1 = 0 ∧ b.weak_count = 0 →
        m1.log = m.log ++ [Event.callDeleter c p, b.deleter.event p, Event.callDestroy c,
          Event.deallocate c (if b.deleter = DeleterType.DefaultDeleter
            then Footprint.ControlData else Footprint.ControlBlock)] ∧
        m1.blocks c = none) ∧
      (b.shared_count - 1 = 0 ∧ 0 < b.weak_count →
        m1.log = m.log ++ [Event.callDeleter c p, b.deleter.event p] ∧
        m1.blocks c = some { b with shared_count := 0 } ∧ m1.allocs = m.allocs) ∧
      (0 < b.shared_count - 1 →
        m1.log = m.log ∧ m1.blocks c = some { b with shared_count := b.shared_count - 1 } ∧
        m1.objects = m.objects ∧ m1.allocs = m.allocs) ∧
      (∀ x, x ≠ c → m1.blocks x = m.blocks x) := by
  obtain ⟨m1, hm1, hblk, hlog, hobj, hal⟩ := shared_dtor_spec p hc hb
  have hdec : b.SharedCountDec.shared_count = b.shared_count - 1 := by
    simp only [ControlBlock.SharedCountDec, SIZE_RANGE_eq] at *
    omega
  have hdecb : b.SharedCountDec = { b with shared_count := b.shared_count - 1 } := by
    cases b
    simp only [ControlBlock.SharedCountDec, SIZE_RANGE_eq, ControlBlock.mk.injEq, and_true] at *
    omega
  rw [hdec] at hblk hlog hobj hal
  refine ⟨m1, hm1, ?_, ?_, ?_, ?_⟩
  · rintro ⟨h0, hw⟩
    constructor
    · rw [hlog]; simp [h0, hw]
    · rw [hblk]; simp [h0, hw]
  · rintro ⟨h0, hw⟩
    have hw0 : b.weak_count ≠ 0 := by omega
    refine ⟨?_, ?_, ?_⟩
    · rw [hlog]; simp [h0, hw0]
    · rw [hblk, hdecb]; simp [h0, hw0]
    · rw [hal]; simp [hw0]
  · intro h0
    have h1 : b.shared_count - 1 ≠ 0 := by omega
    refine ⟨?_, ?_, ?_, ?_⟩
    · rw [hlog]; simp [h1]
    · rw [hblk, hdecb]; simp [h1]
    · rw [hobj]; simp [h1]
    · rw [hal]; simp [h1]
  · intro x hx
    rw [hblk, Function.update_noteq hx]

/-- C17 at a concrete heap: destroying the only owner `(1, 7)` right after adoption
(`s = 1`, `w = 0`) calls the deleter on `7`, then `destroy()`, and the block is gone. -/
theorem C17_shared_destructor_protocol_witness :
    ∃ m1, shared_ptr.dtor (shared_ptr.mk 1 7) demoAdopted.mem = Except.ok m1 ∧
      m1.log = demoAdopted.mem.log ++ [Event.callDeleter 1 7, Event.deleteExpr 7,
        Event.callDestroy 1, Event.deallocate 1 Footprint.ControlBlock] ∧
      m1.blocks 1 = none := by
  obtain ⟨m1, h, h1, -⟩ := C17_shared_destructor_protocol demoAdopted.mem 1 7
    (ControlBlock.construct 0 DeleterType.default_delete) (by decide) rfl (by decide) (by decide)
  exact ⟨m1, h, h1 ⟨rfl, rfl⟩⟩

/-- C18 (code bug): `~weak_ptr()` calls `counter->WeakCountDec()` without testing
`counter`; on a default-constructed `weak_ptr` and on the source of either move
constructor it reads through a null pointer, on every heap. -/
theorem C18_destroying_empty_weak_reads_null (m : Memory) (w : weak_ptr) (u : Nat) :
    weak_ptr.dtor weak_ptr.default m = Except.error Fault.nullDeref ∧
    weak_ptr.dtor (weak_ptr.move w).2 m = Except.error Fault.nullDeref ∧
    weak_ptr.dtor (weak_ptr.moveConverting u w).2 m = Except.error Fault.nullDeref :=
  ⟨weak_dtor_null 0 m, weak_dtor_null 0 m, weak_dtor_null 0 m⟩

/-- C19: for a handle `a = (c, p)` on a live control block with strong count `s ≥ 1` and
weak count `w` (both below the largest `size_t`), copy-constructing `b` from `a` and
destroying `b`, and likewise constructing a `weak_ptr` from `a` and destroying it, both
succeed and leave every control block, the log, the payload objects and the allocations
exactly as they were; the intermediate handle has `a`'s two pointers. -/
theorem C19_copy_then_destroy_round_trip (m : Memory) (c p : Nat) (b : ControlBlock)
    (hc : c ≠ 0) (hb : m.blocks c = some b) (hs : 1 ≤ b.shared_count)
    (hfitS : b.shared_count + 1 < SIZE_RANGE) (hfitW : b.weak_count + 1 < SIZE_RANGE) :
    (∃ b1 m1 m2, shared_ptr.copy { counter := c, ptr := p } m = Except.ok (b1, m1) ∧
      b1 = { counter := c, ptr := p } ∧ shared_ptr.dtor b1 m1 = Except.ok m2 ∧
      m2.blocks = m.blocks ∧ m2.log = m.log ∧ m2.objects = m.objects ∧ m2.allocs = m.allocs) ∧
    (∃ w1 m1 m2, weak_ptr.fromShared { counter := c, ptr := p } m = Except.ok (w1, m1) ∧
      w1 = { counter := c, ptr := p } ∧ weak_ptr.dtor w1 m1 = Except.ok m2 ∧
      m2.blocks = m.blocks ∧ m2.log = m.log ∧ m2.objects = m.objects ∧ m2.allocs = m.allocs) := by
  have hS : b.SharedCountInc.SharedCountDec = b := by
    cases b
    simp only [ControlBlock.SharedCountInc, ControlBlock.SharedCountDec, SIZE_RANGE_eq,
      ControlBlock.mk.injEq, and_true] at *
    omega
  have hW : b.WeakCountInc.WeakCountDec = b := by
    cases b
    simp only [ControlBlock.WeakCountInc, ControlBlock.WeakCountDec, SIZE_RANGE_eq,
      ControlBlock.mk.injEq, true_and, and_true] at *
    omega
  have hWs : b.WeakCountInc.shared_count = b.shared_count := by cases b; rfl
  have hSw : b.SharedCountInc.weak_count = b.weak_count := by cases b; rfl
  have hback : ∀ x : ControlBlock,
      Function.update (m.store c x).blocks c (some b) = m.blocks := by
    intro x
    funext y
    by_cases hy : y = c
    · subst hy; simp [hb]
    · simp [Memory.store, Function.update_noteq hy]
  constructor
  · obtain ⟨m2, hm2, hblk, hlog, hobj, hal⟩ :=
      shared_dtor_spec p hc (store_blocks_same m c b.SharedCountInc)
    have hne : b.shared_count ≠ 0 := by omega
    simp only [hS, hne, false_and, if_false, List.append_nil] at hblk hlog hobj hal
    exact ⟨_, _, m2, shared_copy_ok p hc hb, rfl, hm2, by rw [hblk, hback], hlog, hobj, hal⟩
  · obtain ⟨m2, hm2, hblk, hlog, hobj, hal⟩ :=
      weak_dtor_spec p hc (store_blocks_same m c b.WeakCountInc)
    have hne : b.WeakCountInc.shared_count ≠ 0 := by rw [hWs]; omega
    simp only [hne, false_and, if_false, List.append_nil, hW] at hblk hlog hal
    exact ⟨_, _, m2, weak_fromShared_ok p hc hb, rfl, hm2, by rw [hblk, hback], hlog, hobj, hal⟩

/-- C19 at a concrete heap: the owner `(1, 7)` right after adoption (`s = 1`, `w = 0`). -/
theorem C19_copy_then_destroy_round_trip_witness :
    (∃ b1 m1 m2, shared_ptr.copy (shared_ptr.mk 1 7) demoAdopted.mem = Except.ok (b1, m1) ∧
      b1 = shared_ptr.mk 1 7 ∧ shared_ptr.dtor b1 m1 = Except.ok m2 ∧
      m2.blocks = demoAdopted.mem.blocks ∧ m2.log = demoAdopted.mem.log ∧
      m2.objects = demoAdopted.mem.objects ∧ m2.allocs = demoAdopted.mem.allocs) ∧
    (∃ w1 m1 m2, weak_ptr.fromShared (shared_ptr.mk 1 7) demoAdopted.mem = Except.ok (w1, m1) ∧
      w1 = weak_ptr.mk 1 7 ∧ weak_ptr.dtor w1 m1 = Except.ok m2 ∧
      m2.blocks = demoAdopted.mem.blocks ∧ m2.log = demoAdopted.mem.log ∧
      m2.objects = demoAdopted.mem.objects ∧ m2.allocs = demoAdopted.mem.allocs) :=
  C19_copy_then_destroy_round_trip demoAdopted.mem 1 7
    (ControlBlock.construct 0 DeleterType.default_delete) (by decide) rfl (by decide)
    (by decide) (by decide)
